import Mathlib

/-! netplug: attribute decoder, interface registry and link-transition handler

A shallow embedding of `src/if_info.c` (`parse_rtattrs`, `if_info_save_interface`)
and of `handle_interface` in `src/main.c`, followed by the properties proved of them.

Modelling conventions.

* C `int` values are `Int`, unsigned values are `Nat`; the one place where an unsigned
  subtraction is reinterpreted as a signed 32-bit `int` (the attribute-stream length)
  goes through `toInt32`.
* A `struct rtattr *` walks a buffer record by record.  The buffer is the list of the
  records that sit at the successive aligned offsets; advancing the pointer with
  `RTA_NEXT` is taking the tail of the list.  Each record keeps its self-declared
  `rta_len`, its `rta_type` and the bytes that follow its 4-byte header.
* `static struct if_info *if_info[16]` is a map from bucket number to the chain of
  records hanging off that bucket, in chain order.
* Calls that leave the program (hook runs, reprobe, log lines) are recorded, in
  program order, in a trace of `Event`s.
* `abort()` and `exit()` end the run with a `Stop`.
* A copy that writes past the field it was given ends the run with `Stop.overflow`:
  what the program does after such a write is undefined and nothing is stated about it.
-/

namespace Netplug

/-! ## Constants of the system headers -/

/-- Message type of a new-link notification (`linux/rtnetlink.h`). -/
def RTM_NEWLINK : Nat := 16
/-- Message type of a del-link notification (`linux/rtnetlink.h`). -/
def RTM_DELLINK : Nat := 17
/-- Attribute type carrying the hardware address (`linux/if_link.h`). -/
def IFLA_ADDRESS : Nat := 1
/-- Attribute type carrying the interface name (`linux/if_link.h`). -/
def IFLA_IFNAME : Nat := 3
/-- Flag bit: interface is administratively up (`net/if.h`). -/
def IFF_UP : Nat := 0x1
/-- Flag bit: interface is the loopback (`net/if.h`). -/
def IFF_LOOPBACK : Nat := 0x8
/-- Flag bit: interface is operationally running (`net/if.h`). -/
def IFF_RUNNING : Nat := 0x40
/-- Syslog priority `LOG_ERR`. -/
def LOG_ERR : Nat := 3
/-- Syslog priority `LOG_WARNING`. -/
def LOG_WARNING : Nat := 4
/-- Syslog priority `LOG_INFO`. -/
def LOG_INFO : Nat := 6

/-- The size of `struct rtattr`: two unsigned 16-bit fields. -/
def sizeof_rtattr : Nat := 4
/-- The size of `struct ifinfomsg`. -/
def sizeof_ifinfomsg : Nat := 16
/-- The size of a pointer (`sizeof(info)` in `if_info_save_interface`), LP64. -/
def sizeof_pointer : Nat := 8
/-- The aligned size of `struct nlmsghdr`, `NLMSG_HDRLEN`. -/
def NLMSG_HDRLEN : Nat := 16
/-- The macro `NLMSG_LENGTH(len)`: payload length plus the message header. -/
def NLMSG_LENGTH (len : Nat) : Nat := len + NLMSG_HDRLEN
/-- The alignment of attribute records, `RTA_ALIGNTO`. -/
def RTA_ALIGNTO : Nat := 4
/-- The macro `RTA_ALIGN(len)`, `(len + RTA_ALIGNTO - 1) & ~(RTA_ALIGNTO - 1)`:
`len` rounded up to a multiple of four. -/
def RTA_ALIGN (len : Nat) : Nat := (len + RTA_ALIGNTO - 1) / RTA_ALIGNTO * RTA_ALIGNTO
/-- The macro `RTA_LENGTH(len)`: aligned header size plus `len`. -/
def RTA_LENGTH (len : Nat) : Nat := RTA_ALIGN sizeof_rtattr + len

/-- Reinterpretation of an integer as a signed 32-bit `int` (two's complement). -/
def toInt32 (n : Int) : Int := (n + 2 ^ 31) % 2 ^ 32 - 2 ^ 31

/-! ## Attribute records and the decoder (`src/if_info.c`, lines 8-20) -/

/-- One attribute record, `struct rtattr` together with the bytes after its header. -/
structure rtattr where
  /-- The record's self-declared length, header included. -/
  rta_len : Nat
  /-- The record's type. -/
  rta_type : Nat
  /-- The bytes that follow the header, `RTA_DATA(rta)`. -/
  data : List Nat
deriving DecidableEq

/-- The macro `RTA_OK(rta, len)`:
`len >= (int)sizeof(struct rtattr) && rta->rta_len >= sizeof(struct rtattr) && rta->rta_len <= len`. -/
def RTA_OK (rta : rtattr) (len : Int) : Bool :=
  decide ((sizeof_rtattr : Int) ≤ len) && decide (sizeof_rtattr ≤ rta.rta_len)
    && decide ((rta.rta_len : Int) ≤ len)

/-- The macro `RTA_PAYLOAD(rta)`: `(int)(rta->rta_len) - RTA_LENGTH(0)`. -/
def RTA_PAYLOAD (rta : rtattr) : Int := (rta.rta_len : Int) - (RTA_LENGTH 0 : Nat)

/-- The macro `RTA_DATA(rta)`. -/
def RTA_DATA (rta : rtattr) : List Nat := rta.data

/-- The table `struct rtattr *tb[]`: attribute type to record, `none` for `NULL`. -/
abbrev Table := Nat → Option rtattr

/-- The table after `memset(attrs, 0, sizeof(attrs))`: every slot `NULL`. -/
def Table.empty : Table := fun _ => none

/-- The assignment `tb[t] = rta`. -/
def Table.set (tb : Table) (t : Nat) (rta : rtattr) : Table :=
  fun k => if k = t then some rta else tb k

/-- The ways a run ends other than by returning. -/
inductive Stop where
  /-- The call `abort()`. -/
  | abort
  /-- The call `exit(status)`. -/
  | exit (status : Int)
  /-- The walk read a record header past the end of the modelled buffer. -/
  | overrun
  /-- A copy wrote past the end of the field it was given.  What the program does from
  there on is undefined and is not modelled. -/
  | overflow
deriving DecidableEq

/-- The function `parse_rtattrs(tb, max, rta, len)` of `src/if_info.c`.

While `RTA_OK(rta, len)` holds the record is entered in `tb` when its type is at most
`max`, and `RTA_NEXT` moves to the next record, taking `RTA_ALIGN(rta->rta_len)` off
`len`.  When the loop is left with `len` nonzero the function aborts.  `RTA_OK` looks
at the record only once `len >= 4`; when no record is left in the modelled buffer at
that point the outcome is `Stop.overrun`.  The line written to `stderr` before
`abort()` is not recorded. -/
def parse_rtattrs (tb : Table) (max : Int) : List rtattr → Int → Except Stop Table
  | [], len =>
    if (sizeof_rtattr : Int) ≤ len then .error .overrun
    else if len ≠ 0 then .error .abort
    else .ok tb
  | rta :: next, len =>
    if RTA_OK rta len then
      parse_rtattrs (if (rta.rta_type : Int) ≤ max then tb.set rta.rta_type rta else tb) max next
        (len - (RTA_ALIGN rta.rta_len : Nat))
    else if len ≠ 0 then .error .abort
    else .ok tb

/-- A stream of records is well formed for a declared length: each record's
self-declared length is at least the header size, and the aligned record sizes sum
exactly to the declared length. -/
@[reducible] def well_formed (rta : List rtattr) (len : Int) : Prop :=
  (∀ r ∈ rta, sizeof_rtattr ≤ r.rta_len) ∧
    (((rta.map (fun r => RTA_ALIGN r.rta_len)).sum : Nat) : Int) = len

/-- The last record of type `t` in a stream, if there is one. -/
def last_of_type (t : Nat) (rta : List rtattr) : Option rtattr :=
  (rta.filter (fun r => decide (r.rta_type = t))).getLast?

/-- A C string read from a byte buffer: the bytes before the first NUL. -/
def c_string (bytes : List Nat) : List Nat := bytes.takeWhile (fun b => decide (b ≠ 0))

/-- The bytes of a text followed by the terminating NUL, as they sit in a payload. -/
def c_bytes (s : String) : List Nat := s.toList.map Char.toNat ++ [0]

/-! ## Link messages -/

/-- The fixed link-info header, `struct ifinfomsg`. -/
structure ifinfomsg where
  /-- Address family. -/
  ifi_family : Nat
  /-- Link-layer type. -/
  ifi_type : Nat
  /-- Interface index (a C `int`). -/
  ifi_index : Int
  /-- Flag bitmask. -/
  ifi_flags : Nat
  /-- Change mask. -/
  ifi_change : Nat
deriving DecidableEq

/-- A netlink message as the handlers see it: the fields of `struct nlmsghdr` they
read, the link-info header at `NLMSG_DATA(hdr)` and the attribute records at
`IFLA_RTA(info)`. -/
structure nlmsghdr where
  /-- Total message length, header included (unsigned 32-bit). -/
  nlmsg_len : Nat
  /-- Message type. -/
  nlmsg_type : Nat
  /-- The link-info header, `NLMSG_DATA(hdr)`. -/
  info : ifinfomsg
  /-- The attribute records after the link-info header, `IFLA_RTA(info)`. -/
  attrs : List rtattr
deriving DecidableEq

/-- The attribute-stream length both handlers pass to the decoder:
`hdr->nlmsg_len - NLMSG_LENGTH(sizeof(struct ifinfomsg))` (also the value of
`IFLA_PAYLOAD(hdr)`), an unsigned difference stored in an `int`. -/
def attr_len (hdr : nlmsghdr) : Int :=
  toInt32 ((hdr.nlmsg_len : Int) - (NLMSG_LENGTH sizeof_ifinfomsg : Nat))

/-! ## The interface registry (`src/if_info.c`, lines 23-81) -/

/-- Modelled from the spec: the capacity of the hardware-address field of
`struct if_info` (declared in `netplug.h`), 32 bytes. -/
def sizeof_addr : Nat := 32

/-- Modelled from the spec: the capacity of the name field of `struct if_info` (declared
in `netplug.h`), 15 visible bytes and the terminator. -/
def sizeof_name : Nat := 16

/-- One registry record, `struct if_info` without its `next` link (the chain order is
the list order). -/
structure if_info where
  /-- Interface index, the key. -/
  index : Int
  /-- Link-layer type. -/
  type : Nat
  /-- Flag bitmask last stored. -/
  flags : Nat
  /-- Stored address length. -/
  addr_len : Int
  /-- Stored address bytes. -/
  addr : List Nat
  /-- Stored interface name: the bytes before the NUL.  The field has room for
  `sizeof_name - 1` of them. -/
  name : List Nat
deriving DecidableEq

/-- The table `static struct if_info *if_info[16]`: bucket number to chain. -/
abbrev Registry := Nat → List if_info

/-- The registry at program start: sixteen empty chains. -/
def Registry.empty : Registry := fun _ => []

/-- The bucket of an index, `ifi_index & 0xf`. -/
def bucket (ifi_index : Int) : Nat := (ifi_index % 16).toNat

/-- The chain walk of lines 50-54: the first record of the chain whose index is the
wanted one, or `none` when the walk reaches the end of the chain. -/
def chain_find (index : Int) : List if_info → Option if_info
  | [] => none
  | i :: next => if i.index = index then some i else chain_find index next

/-- A record as allocated at line 57 with its index set at line 59.  The other fields
are written before they are read; they are modelled as zero. -/
def if_info.fresh (index : Int) : if_info :=
  { index := index, type := 0, flags := 0, addr_len := 0,
    addr := List.replicate sizeof_addr 0, name := [] }

/-- The call `memcpy(dst, src, n)` on byte lists: `n` bytes are written from the start
of `dst`, whatever the size of `dst`, so the result is longer than `dst` when `n` is
larger than `dst`.  The byte written at position `k` is byte `k` of `src`; a byte past
the end of the modelled `src` is read as 0. -/
def memcpy : List Nat → List Nat → Nat → List Nat
  | dst, _, 0 => dst
  | dst, src, n + 1 => src.headD 0 :: memcpy dst.tail src.tail n

/-- The call `strcpy(dst, src)` into a field of `size` bytes: the bytes of `src` before
the NUL are stored, followed by the NUL.  There is no bound in the call: when the bytes
and the NUL do not fit in `size` bytes the copy writes past the field, and the result is
`none`. -/
def strcpy (size : Nat) (src : List Nat) : Option (List Nat) :=
  if (c_string src).length < size then some (c_string src) else none

/-- Lines 63-77: the fields of the record are overwritten from the message; `name` is
what the `strcpy` of line 77 has stored in the name field.  The comparison
`alen > sizeof(i->addr)` is made in `size_t`, where a negative `alen` is a huge value. -/
def store_fields (info : ifinfomsg) (attrs : Table) (name : List Nat) (i : if_info) :
    if_info :=
  let i1 := { i with type := info.ifi_type, flags := info.ifi_flags }
  let i2 :=
    match attrs IFLA_ADDRESS with
    | some a =>
      let alen := RTA_PAYLOAD a
      let n := if alen < 0 ∨ (sizeof_addr : Int) < alen then sizeof_addr else alen.toNat
      { i1 with addr_len := alen, addr := memcpy i1.addr (RTA_DATA a) n }
    | none => { i1 with addr_len := 0, addr := List.replicate sizeof_addr 0 }
  { i2 with name := name }

/-- Lines 50-77 on one chain: the record with the wanted index is updated in place;
when the walk reaches the end of the chain a new record is linked there and filled. -/
def chain_store (index : Int) (f : if_info → if_info) : List if_info → List if_info
  | [] => [f (if_info.fresh index)]
  | i :: next => if i.index = index then f i :: next else i :: chain_store index f next

/-- The record stored for an index, if there is one: the chain walk of lines 47-54 in
the bucket of the index, without the creation of lines 56-61 (the `getOnly(index)` of
the spec). -/
def getOnly (reg : Registry) (index : Int) : Option if_info :=
  chain_find index (reg (bucket index))

/-- Lines 47-77: find or create the record of the message's index in its bucket and
overwrite its fields, `name` being what the `strcpy` of line 77 has stored. -/
def registry_store (reg : Registry) (info : ifinfomsg) (attrs : Table) (name : List Nat) :
    Registry :=
  fun x =>
    if x = bucket info.ifi_index then
      chain_store info.ifi_index (store_fields info attrs name) (reg x)
    else reg x

/-- What leaves the program, in program order. -/
inductive Event where
  /-- The call `run_netplug_bg(name, verb)`: a hook decision. -/
  | run_netplug_bg (name : List Nat) (verb : String)
  /-- The call `try_probe(name)`: a reprobe request. -/
  | try_probe (name : List Nat)
  /-- The call `do_log(priority, format, ...)`. -/
  | do_log (priority : Nat) (format : String)
  /-- The call `printf("info for %s\n", name)`. -/
  | printf (name : List Nat)
deriving DecidableEq

/-- How a handler call ends. -/
inductive Outcome where
  /-- The handler returned this value to the message loop. -/
  | returned (value : Int)
  /-- The process ended inside the handler. -/
  | stopped (how : Stop)
deriving DecidableEq

/-- The observable result of a handler call. -/
structure Result where
  /-- How the call ended. -/
  outcome : Outcome
  /-- The registry after the call. -/
  registry : Registry
  /-- What the call sent out. -/
  trace : List Event

/-- The function `if_info_save_interface(hdr, arg)` of `src/if_info.c`, the handler of
the dump phase.  The header constant `IFLA_MAX` is a parameter.  When the `strcpy` of
line 77 writes past the name field the outcome is `Stop.overflow`; the registry and the
trace of that result carry no information. -/
def if_info_save_interface (IFLA_MAX : Int) (reg : Registry) (hdr : nlmsghdr) : Result :=
  if hdr.nlmsg_type ≠ RTM_NEWLINK then ⟨.returned 0, reg, []⟩
  else if hdr.nlmsg_len < NLMSG_LENGTH sizeof_pointer then ⟨.returned (-1), reg, []⟩
  else
    match parse_rtattrs Table.empty IFLA_MAX hdr.attrs (attr_len hdr) with
    | .error how => ⟨.stopped how, reg, []⟩
    | .ok attrs =>
      match attrs IFLA_IFNAME with
      | none => ⟨.returned 0, reg, []⟩
      | some ifname =>
        match strcpy sizeof_name (RTA_DATA ifname) with
        | none => ⟨.stopped .overflow, reg, []⟩
        | some name => ⟨.returned 0, registry_store reg hdr.info attrs name, [.printf name]⟩

/-! ## The collaborators of `handle_interface` that live outside `src/` -/

/-- Modelled from the spec: `if_info_get_interface`, the `getOnly(index)` lookup of the
registry used on the live path.  It returns the existing record of the message's
index without creating one, `none` when there is none. -/
def if_info_get_interface (reg : Registry) (hdr : nlmsghdr) (_attrs : Table) :
    Option if_info :=
  getOnly reg hdr.info.ifi_index

/-- Modelled from the spec: the bounded copy of a name into the name field that the
spec asks of the registry (a name longer than the capacity must not overrun storage):
the bytes before the NUL, cut to the `sizeof_name - 1` that leave room for the NUL. -/
def bounded_name (ifname : rtattr) : List Nat :=
  (c_string (RTA_DATA ifname)).take (sizeof_name - 1)

/-- Modelled from the spec: `if_info_update_interface`, `getOrCreate(index)` followed by
`update(record, linkType, flags, hwAddress, name)`.  The record of the message's index is
found or created and its fields overwritten unconditionally, as lines 47-76 of
`src/if_info.c` do, the name by the bounded copy of the spec; a message without a name
attribute creates no record. -/
def if_info_update_interface (reg : Registry) (hdr : nlmsghdr) (attrs : Table) : Registry :=
  match attrs IFLA_IFNAME with
  | none => reg
  | some ifname => registry_store reg hdr.info attrs (bounded_name ifname)

/-- Modelled from the spec: the `parse_rtattrs` that `src/main.c` calls, the
`decode(stream, declaredLength, maxType)` of the attribute decoder.  The one in
`src/if_info.c` is local to that file; this one is taken to build the table fresh for
each message and then to run the same walk. -/
def decode (max : Int) (rta : List rtattr) (len : Int) : Except Stop Table :=
  parse_rtattrs Table.empty max rta len

/-- One element of a glob pattern. -/
inductive Glob where
  /-- The wildcard `*`: any run of characters. -/
  | star
  /-- The wildcard `?`: any one character. -/
  | any
  /-- A character class `[...]` or `[!...]`: a list of inclusive ranges, negated or not. -/
  | cls (negated : Bool) (ranges : List (Nat × Nat))
  /-- A literal character. -/
  | lit (c : Nat)
deriving DecidableEq

/-- Modelled from the spec: glob matching of a name against one pattern. -/
def glob_match : List Glob → List Nat → Bool
  | [], s => s.isEmpty
  | .star :: p, s => s.tails.any (glob_match p)
  | .any :: p, s =>
    match s with
    | [] => false
    | _ :: s1 => glob_match p s1
  | .cls negated ranges :: p, s =>
    match s with
    | [] => false
    | c :: s1 =>
      (ranges.any (fun r => decide (r.1 ≤ c) && decide (c ≤ r.2)) != negated)
        && glob_match p s1
  | .lit c :: p, s =>
    match s with
    | [] => false
    | d :: s1 => decide (c = d) && glob_match p s1

/-- A pattern written without character classes: `*` and `?` are the wildcards, every
other character stands for itself. -/
def glob_of (s : String) : List Glob :=
  s.toList.map (fun c => if c = '*' then Glob.star else if c = '?' then Glob.any
    else Glob.lit c.toNat)

/-- Modelled from the spec: `NameFilter.matches`, the `if_match` of a pattern list.  An
empty list matches every name; otherwise a name matches when some pattern does. -/
def name_filter (patterns : List (List Glob)) (name : List Nat) : Bool :=
  patterns.isEmpty || patterns.any (fun p => glob_match p name)

/-- What `handle_interface` takes from outside `src/main.c`. -/
structure Env where
  /-- The header constant `IFLA_MAX`, the largest attribute type kept. -/
  IFLA_MAX : Int
  /-- The name filter `if_match(name)`. -/
  if_match : List Nat → Bool
  /-- The value `try_probe(name)` returns; zero is failure. -/
  try_probe : List Nat → Int

/-! ## The live-phase handler (`src/main.c`, lines 32-101) -/

/-- The macro `flag_was_set(flag)`:
`!(i->flags & (flag)) && (info->ifi_flags & (flag))`. -/
def flag_was_set (i : if_info) (info : ifinfomsg) (flag : Nat) : Bool :=
  decide (i.flags &&& flag = 0) && decide (info.ifi_flags &&& flag ≠ 0)

/-- The macro `flag_was_unset(flag)`:
`(i->flags & (flag)) && !(info->ifi_flags & (flag))`. -/
def flag_was_unset (i : if_info) (info : ifinfomsg) (flag : Nat) : Bool :=
  decide (i.flags &&& flag ≠ 0) && decide (info.ifi_flags &&& flag = 0)

/-- Lines 82-95: the log line and the edge-triggered calls, in program order. -/
def transitions (env : Env) (name : List Nat) (i : if_info) (info : ifinfomsg) :
    List Event :=
  [Event.do_log LOG_INFO "%s: flags 0x%08x -> 0x%08x"]
    ++ (if flag_was_set i info IFF_RUNNING then [Event.run_netplug_bg name "in"] else [])
    ++ (if flag_was_unset i info IFF_RUNNING then [Event.run_netplug_bg name "out"] else [])
    ++ (if flag_was_unset i info IFF_UP then
          [Event.try_probe name]
            ++ (if env.try_probe name = 0 then
                  [Event.do_log LOG_WARNING "Could not bring %s back up"]
                else [])
        else [])

/-- The function `handle_interface(hdr, arg)` of `src/main.c`.  The label `done` is the
call of `if_info_update_interface` followed by `return 0`. -/
def handle_interface (env : Env) (reg : Registry) (hdr : nlmsghdr) : Result :=
  if hdr.nlmsg_type ≠ RTM_NEWLINK ∧ hdr.nlmsg_type ≠ RTM_DELLINK then
    ⟨.returned 0, reg, []⟩
  else
    let info := hdr.info
    let len := attr_len hdr
    if info.ifi_flags &&& IFF_LOOPBACK ≠ 0 then ⟨.returned 0, reg, []⟩
    else if len < 0 then ⟨.returned (-1), reg, [.do_log LOG_ERR "len = %d"]⟩
    else
      match decode env.IFLA_MAX hdr.attrs len with
      | .error how => ⟨.stopped how, reg, []⟩
      | .ok attrs =>
        match attrs IFLA_IFNAME with
        | none => ⟨.stopped (.exit 1), reg, [.do_log LOG_ERR "No interface name"]⟩
        | some ifname =>
          let name := c_string (RTA_DATA ifname)
          if !env.if_match name then
            ⟨.returned 0, if_info_update_interface reg hdr attrs, []⟩
          else
            match if_info_get_interface reg hdr attrs with
            | none =>
              ⟨.returned 0, reg, [.do_log LOG_ERR "if_info_get_interface returned NULL"]⟩
            | some i =>
              if i.flags = info.ifi_flags then
                ⟨.returned 0, if_info_update_interface reg hdr attrs, []⟩
              else
                ⟨.returned 0, if_info_update_interface reg hdr attrs,
                  transitions env name i info⟩

/-- The hook decisions of a trace. -/
def hook_decisions (trace : List Event) : List Event :=
  trace.filter (fun e => match e with | .run_netplug_bg _ _ => true | _ => false)

/-- The reprobe calls of a trace. -/
def reprobe_calls (trace : List Event) : List Event :=
  trace.filter (fun e => match e with | .try_probe _ => true | _ => false)

/-- The premises shared by the statements about the live path: the message is a new-link
or del-link message, it is not for the loopback interface, its attribute stream is well
formed for the computed length, and `ifname` is its name attribute (the last record of
type `IFLA_IFNAME`, which the decoder keeps because `IFLA_IFNAME ≤ IFLA_MAX`). -/
@[reducible] def live_named (env : Env) (hdr : nlmsghdr) (ifname : rtattr) : Prop :=
  (hdr.nlmsg_type = RTM_NEWLINK ∨ hdr.nlmsg_type = RTM_DELLINK) ∧
    hdr.info.ifi_flags &&& IFF_LOOPBACK = 0 ∧
    well_formed hdr.attrs (attr_len hdr) ∧
    (IFLA_IFNAME : Int) ≤ env.IFLA_MAX ∧
    last_of_type IFLA_IFNAME hdr.attrs = some ifname

/-! ## The decoder loop, iteration by iteration -/

/-- The value of `len` when the loop of `parse_rtattrs` (lines 11-15) is left: the
remaining length at the first record for which `RTA_OK` fails.  As in `parse_rtattrs`,
the outcome is `Stop.overrun` when the loop would look at a record past the modelled
buffer. -/
def walk_remaining : List rtattr → Int → Except Stop Int
  | [], len => if (sizeof_rtattr : Int) ≤ len then .error .overrun else .ok len
  | rta :: next, len =>
    if RTA_OK rta len then walk_remaining next (len - (RTA_ALIGN rta.rta_len : Nat))
    else .ok len

/-- The number of iterations the loop of `parse_rtattrs` takes over the records of the
modelled buffer. -/
def walk_steps : List rtattr → Int → Nat
  | [], _ => 0
  | rta :: next, len =>
    if RTA_OK rta len then walk_steps next (len - (RTA_ALIGN rta.rta_len : Nat)) + 1
    else 0

/-- The loop of `parse_rtattrs` over a buffer that never ends: `buf pos` is the record
the pointer is at after `pos` advances.  With enough fuel the result is the number of
iterations taken and the value of `len` when the loop is left; `none` means the fuel
ran out first. -/
def walk_stream (buf : Nat → rtattr) : Nat → Nat → Int → Option (Nat × Int)
  | 0, _, _ => none
  | fuel + 1, pos, len =>
    if RTA_OK (buf pos) len then
      match walk_stream buf fuel (pos + 1) (len - (RTA_ALIGN (buf pos).rta_len : Nat)) with
      | some (n, rem) => some (n + 1, rem)
      | none => none
    else some (0, len)

/-! ## The dump phase and the size of the registry -/

/-- The registry after the dump phase: `if_info_save_interface` handles the messages in
order, starting from the empty registry. -/
def dump (IFLA_MAX : Int) (msgs : List nlmsghdr) : Registry :=
  msgs.foldl (fun reg hdr => (if_info_save_interface IFLA_MAX reg hdr).registry)
    Registry.empty

/-- The registries the dump phase can be in: the empty registry, and the registry left by
a call of `if_info_save_interface` that returned, made in such a registry.  A call that
ends in a `Stop` ends the sequence. -/
inductive reachable (IFLA_MAX : Int) : Registry → Prop where
  /-- The registry at program start. -/
  | empty : reachable IFLA_MAX Registry.empty
  /-- The registry after one more call that returned. -/
  | save (reg : Registry) (hdr : nlmsghdr) (value : Int) :
      reachable IFLA_MAX reg →
      (if_info_save_interface IFLA_MAX reg hdr).outcome = Outcome.returned value →
      reachable IFLA_MAX (if_info_save_interface IFLA_MAX reg hdr).registry

/-- The number of records in the sixteen chains. -/
def n_records (reg : Registry) : Nat :=
  ((List.range 16).map (fun x => (reg x).length)).sum

/-- The number of records of the sixteen chains whose index is `index`. -/
def n_records_of (reg : Registry) (index : Int) : Nat :=
  ((List.range 16).map
    (fun x => ((reg x).filter (fun r => decide (r.index = index))).length)).sum

/-- The chains are consistent: every record sits in the bucket of its index, and no two
records of a chain have the same index. -/
def chains_consistent (reg : Registry) : Prop :=
  ∀ x, (∀ k ∈ (reg x).map (fun r => r.index), bucket k = x) ∧
    ((reg x).map (fun r => r.index)).Nodup

/-- Every name attribute of the message fits the name field of a record: its bytes
before the NUL, and the NUL, take at most `sizeof_name` bytes. -/
@[reducible] def names_fit (hdr : nlmsghdr) : Prop :=
  ∀ r ∈ hdr.attrs, r.rta_type = IFLA_IFNAME → (c_string (RTA_DATA r)).length < sizeof_name

/-- The premises of the statements about a saved message: it is a new-link message, its
attribute stream is well formed for the computed length, `ifname` is its name attribute
(the last record of type `IFLA_IFNAME`, kept because `IFLA_IFNAME ≤ IFLA_MAX`), and the
name fits the name field of a record. -/
@[reducible] def dump_named (IFLA_MAX : Int) (hdr : nlmsghdr) (ifname : rtattr) : Prop :=
  hdr.nlmsg_type = RTM_NEWLINK ∧
    well_formed hdr.attrs (attr_len hdr) ∧
    (IFLA_IFNAME : Int) ≤ IFLA_MAX ∧
    last_of_type IFLA_IFNAME hdr.attrs = some ifname ∧
    (c_string (RTA_DATA ifname)).length < sizeof_name

/-! ## Concrete messages on which the statements are exercised -/

/-- A hardware-address attribute with a payload of `n` bytes `1, 2, ..., n`, padded to
the next multiple of four. -/
def addr_attr (n : Nat) : rtattr :=
  { rta_len := sizeof_rtattr + n, rta_type := IFLA_ADDRESS,
    data := (List.range n).map (fun k => k + 1) ++
      List.replicate (RTA_ALIGN (sizeof_rtattr + n) - (sizeof_rtattr + n)) 0 }

/-- A name attribute: header, the characters of the name, the NUL, and the padding up
to the next multiple of four. -/
def name_attr (s : String) : rtattr :=
  { rta_len := sizeof_rtattr + s.length + 1, rta_type := IFLA_IFNAME,
    data := c_bytes s ++
      List.replicate (RTA_ALIGN (sizeof_rtattr + s.length + 1) - (sizeof_rtattr + s.length + 1)) 0 }

/-- A link message of the given type, index and flags whose declared length covers its
attribute records exactly. -/
def link_msg (type : Nat) (index : Int) (flags : Nat) (attrs : List rtattr) : nlmsghdr :=
  { nlmsg_len :=
      NLMSG_LENGTH sizeof_ifinfomsg + (attrs.map (fun r => RTA_ALIGN r.rta_len)).sum,
    nlmsg_type := type,
    info := { ifi_family := 0, ifi_type := 1, ifi_index := index, ifi_flags := flags,
              ifi_change := 0 },
    attrs := attrs }

/-- An environment whose pattern list is `eth*` and whose reprobe fails. -/
def eth_only : Env :=
  { IFLA_MAX := 11, if_match := name_filter [glob_of "eth*"], try_probe := fun _ => 0 }

/-- The registry after the dump phase has saved index 3, `eth0`, flags UP. -/
def after_dump : Registry :=
  (if_info_save_interface 11 Registry.empty
    (link_msg RTM_NEWLINK 3 IFF_UP [name_attr "eth0"])).registry

/-- The registry after the dump phase has saved index 3, `eth0`, flags UP and RUNNING. -/
def after_dump_running : Registry :=
  (if_info_save_interface 11 Registry.empty
    (link_msg RTM_NEWLINK 3 (IFF_UP ||| IFF_RUNNING) [name_attr "eth0"])).registry

/-- The record the dump phase stores for index 3, `eth0`, link type 1, with the given
flags and no hardware address. -/
def eth0_record (flags : Nat) : if_info :=
  { index := 3, type := 1, flags := flags, addr_len := 0,
    addr := List.replicate sizeof_addr 0, name := [101, 116, 104, 48] }

/-- A stream of four records: a name, a six-byte hardware address, a record of type 20
and a second name.  Its aligned sizes sum to 40. -/
def sample_stream : List rtattr :=
  [name_attr "eth0",
   { rta_len := 10, rta_type := IFLA_ADDRESS, data := [0, 1, 2, 3, 4, 5, 0, 0] },
   { rta_len := 4, rta_type := 20, data := [] },
   name_attr "eth1"]

/-- A del-link message for index 3 that carries a hardware address and no name. -/
def dellink_without_name : nlmsghdr :=
  link_msg RTM_DELLINK 3 IFF_UP
    [{ rta_len := 10, rta_type := IFLA_ADDRESS, data := [0, 1, 2, 3, 4, 5, 0, 0] }]

/-- A loopback message without attributes whose declared length is shorter than its
headers. -/
def short_loopback_msg : nlmsghdr :=
  { nlmsg_len := 5, nlmsg_type := RTM_NEWLINK,
    info := { ifi_family := 0, ifi_type := 772, ifi_index := 1,
              ifi_flags := IFF_UP ||| IFF_LOOPBACK ||| IFF_RUNNING, ifi_change := 0 },
    attrs := [] }

/-- A stream whose second and final record declares 20 bytes where 8 remain. -/
def truncated_stream : List rtattr :=
  [name_attr "eth0", { rta_len := 20, rta_type := IFLA_ADDRESS, data := [1, 2, 3, 4] }]

/-- A stream whose second and final record declares 2 bytes, less than a header. -/
def runt_stream : List rtattr :=
  [name_attr "eth0", { rta_len := 2, rta_type := IFLA_ADDRESS, data := [] }]

/-- A stream whose second and final record declares 5 bytes where 5 remain, so that its
padding ends 3 bytes past the declared length. -/
def unpadded_stream : List rtattr :=
  [name_attr "eth0", { rta_len := 5, rta_type := IFLA_ADDRESS, data := [1] }]

/-- A new-link message for index 3 named `eth0` with a hardware address of 40 bytes. -/
def long_addr_msg : nlmsghdr :=
  link_msg RTM_NEWLINK 3 IFF_UP [name_attr "eth0", addr_attr 40]

/-- A new-link message for index 3 named `eth0` with a hardware address of 6 bytes. -/
def short_addr_msg : nlmsghdr :=
  link_msg RTM_NEWLINK 3 IFF_UP [name_attr "eth0", addr_attr 6]

/-- A new-link message for index 7 whose name has 20 visible bytes. -/
def long_name_msg : nlmsghdr :=
  link_msg RTM_NEWLINK 7 IFF_UP [name_attr "verylonginterface000"]

/-- A new-link message without attributes whose declared length, 28, covers the message
header and 12 of the 16 bytes of the link-info header. -/
def short_newlink_msg : nlmsghdr :=
  { nlmsg_len := 28, nlmsg_type := RTM_NEWLINK,
    info := { ifi_family := 0, ifi_type := 1, ifi_index := 3, ifi_flags := IFF_UP,
              ifi_change := 0 },
    attrs := [] }

/-- A new-link message for index 3 that carries a hardware address and no name. -/
def newlink_without_name : nlmsghdr :=
  link_msg RTM_NEWLINK 3 (IFF_UP ||| IFF_RUNNING) [addr_attr 6]

/-- A del-link message that is not loopback, declares 20 bytes in all, and is followed by
a stream the decoder would abort on. -/
def short_dellink_msg : nlmsghdr :=
  { nlmsg_len := 20, nlmsg_type := RTM_DELLINK,
    info := { ifi_family := 0, ifi_type := 1, ifi_index := 3, ifi_flags := IFF_UP,
              ifi_change := 0 },
    attrs := truncated_stream }

/-- A buffer that never ends: every record is an empty attribute of 4 bytes. -/
def endless_buffer : Nat → rtattr :=
  fun _ => { rta_len := 4, rta_type := 0, data := [] }

/-- The registry after a dump of three interfaces whose indices 3, 19 and -13 share the
low four bits. -/
def colliding_dump : Registry :=
  dump 11 [link_msg RTM_NEWLINK 3 IFF_UP [name_attr "eth0"],
           link_msg RTM_NEWLINK 19 IFF_UP [name_attr "eth1"],
           link_msg RTM_NEWLINK (-13) IFF_UP [name_attr "eth2"]]

/-! ## The decoder on well-formed streams -/

theorem RTA_ALIGN_ge (n : Nat) : n ≤ RTA_ALIGN n := by
  unfold RTA_ALIGN RTA_ALIGNTO
  omega

theorem last_of_type_nil (t : Nat) : last_of_type t [] = none := rfl

theorem last_of_type_cons (t : Nat) (r : rtattr) (rest : List rtattr) :
    last_of_type t (r :: rest) =
      match last_of_type t rest with
      | some x => some x
      | none => if r.rta_type = t then some r else none := by
  unfold last_of_type
  by_cases h : r.rta_type = t
  · simp only [List.filter_cons, h, decide_True, if_true, List.getLast?_cons]
    generalize (List.filter (fun r => decide (r.rta_type = t)) rest).getLast? = o
    cases o <;> rfl
  · rw [List.filter_cons_of_neg (by simpa using h)]
    generalize (List.filter (fun r => decide (r.rta_type = t)) rest).getLast? = o
    cases o <;> simp [h]

/-- The walk over a well-formed stream ends normally, and the table it returns is the
starting table overwritten, for each type up to `max`, by the last record of that
type. -/
theorem parse_rtattrs_of_well_formed (max : Int) :
    ∀ (rta : List rtattr) (tb : Table) (len : Int), well_formed rta len →
      ∃ tb1, parse_rtattrs tb max rta len = .ok tb1 ∧
        ∀ t : Nat, tb1 t = if (t : Int) ≤ max then
                       (match last_of_type t rta with
                        | some r => some r
                        | none => tb t)
                     else tb t := by
  intro rta
  induction rta with
  | nil =>
    intro tb len h
    obtain ⟨-, hs⟩ := h
    simp only [List.map_nil, List.sum_nil, Nat.cast_zero] at hs
    subst hs
    refine ⟨tb, ?_, ?_⟩
    · simp [parse_rtattrs, sizeof_rtattr]
    · intro t
      simp [last_of_type_nil]
  | cons r rest ih =>
    intro tb len h
    obtain ⟨hall, hs⟩ := h
    have hr : sizeof_rtattr ≤ r.rta_len := hall r (List.mem_cons_self _ _)
    have hrest : ∀ x ∈ rest, sizeof_rtattr ≤ x.rta_len :=
      fun x hx => hall x (List.mem_cons_of_mem _ hx)
    simp only [List.map_cons, List.sum_cons, Nat.cast_add] at hs
    have hal := RTA_ALIGN_ge r.rta_len
    have hok : RTA_OK r len = true := by
      unfold sizeof_rtattr at hr
      simp only [RTA_OK, sizeof_rtattr, Bool.and_eq_true, decide_eq_true_eq]
      omega
    have hwf : well_formed rest (len - (RTA_ALIGN r.rta_len : Nat)) := ⟨hrest, by omega⟩
    obtain ⟨tb1, hp, ht⟩ :=
      ih (if (r.rta_type : Int) ≤ max then tb.set r.rta_type r else tb) _ hwf
    refine ⟨tb1, ?_, ?_⟩
    · simp only [parse_rtattrs, hok, if_true]
      exact hp
    · intro t
      rw [ht t, last_of_type_cons]
      by_cases hmax : (t : Int) ≤ max
      · simp only [hmax, if_true]
        cases last_of_type t rest with
        | some x => rfl
        | none =>
          by_cases hty : r.rta_type = t
          · subst hty
            simp [hmax, Table.set]
          · have hty2 : ¬ t = r.rta_type := fun e => hty e.symm
            by_cases hm2 : (r.rta_type : Int) ≤ max <;> simp [hm2, hty, hty2, Table.set]
      · simp only [hmax, if_false]
        by_cases hm2 : (r.rta_type : Int) ≤ max
        · have hty2 : ¬ t = r.rta_type := fun e => hmax (e ▸ hm2)
          simp [hm2, hty2, Table.set]
        · simp [hm2]



/-! ## The handler after a successful decode -/

theorem handle_interface_decoded (env : Env) (reg : Registry) (hdr : nlmsghdr)
    (attrs : Table) (ifname : rtattr)
    (htype : hdr.nlmsg_type = RTM_NEWLINK ∨ hdr.nlmsg_type = RTM_DELLINK)
    (hloop : hdr.info.ifi_flags &&& IFF_LOOPBACK = 0)
    (hlen : 0 ≤ attr_len hdr)
    (hparse : decode env.IFLA_MAX hdr.attrs (attr_len hdr) = .ok attrs)
    (hname : attrs IFLA_IFNAME = some ifname) :
    handle_interface env reg hdr =
      if env.if_match (c_string (RTA_DATA ifname)) = false then
        ⟨.returned 0, registry_store reg hdr.info attrs (bounded_name ifname), []⟩
      else
        match getOnly reg hdr.info.ifi_index with
        | none =>
          ⟨.returned 0, reg, [.do_log LOG_ERR "if_info_get_interface returned NULL"]⟩
        | some i =>
          ⟨.returned 0, registry_store reg hdr.info attrs (bounded_name ifname),
            if i.flags = hdr.info.ifi_flags then []
            else transitions env (c_string (RTA_DATA ifname)) i hdr.info⟩ := by
  have h1 : ¬ (hdr.nlmsg_type ≠ RTM_NEWLINK ∧ hdr.nlmsg_type ≠ RTM_DELLINK) := by
    rcases htype with h | h <;> simp [h]
  have h2 : ¬ attr_len hdr < 0 := not_lt.mpr hlen
  unfold handle_interface
  simp only [h1, if_false, hloop, ne_eq, not_true_eq_false, h2, hparse, hname,
    if_info_update_interface, if_info_get_interface]
  cases hm : env.if_match (c_string (RTA_DATA ifname))
  · simp
  · cases hg : getOnly reg hdr.info.ifi_index with
    | none => simp
    | some i => by_cases hf : i.flags = hdr.info.ifi_flags <;> simp [hf]


/-! ## The registry under find-or-create -/

theorem store_fields_index (info : ifinfomsg) (attrs : Table) (name : List Nat)
    (i : if_info) : (store_fields info attrs name i).index = i.index := by
  unfold store_fields
  cases attrs IFLA_ADDRESS <;> rfl

theorem store_fields_flags (info : ifinfomsg) (attrs : Table) (name : List Nat)
    (i : if_info) : (store_fields info attrs name i).flags = info.ifi_flags := by
  unfold store_fields
  cases attrs IFLA_ADDRESS <;> rfl

theorem memcpy_idem : ∀ (dst src : List Nat) (n : Nat),
    memcpy (memcpy dst src n) src n = memcpy dst src n
  | _, _, 0 => by simp [memcpy]
  | dst, src, n + 1 => by simp [memcpy, memcpy_idem dst.tail src.tail n]

theorem store_fields_idem (info : ifinfomsg) (attrs : Table) (name : List Nat)
    (i : if_info) :
    store_fields info attrs name (store_fields info attrs name i) =
      store_fields info attrs name i := by
  unfold store_fields
  cases attrs IFLA_ADDRESS with
  | none => rfl
  | some a => simp [memcpy_idem]

theorem chain_find_store (index : Int) (f : if_info → if_info)
    (hf : ∀ i, (f i).index = i.index) :
    ∀ chain : List if_info,
      chain_find index (chain_store index f chain) =
        some (f (match chain_find index chain with
                 | some i => i
                 | none => if_info.fresh index))
  | [] => by simp [chain_store, chain_find, hf, if_info.fresh]
  | i :: next => by
    by_cases h : i.index = index
    · simp [chain_store, chain_find, h, hf]
    · simp [chain_store, chain_find, h, chain_find_store index f hf next]

theorem chain_store_idem (index : Int) (f : if_info → if_info)
    (hf : ∀ i, (f i).index = i.index) (hff : ∀ i, f (f i) = f i) :
    ∀ chain : List if_info,
      chain_store index f (chain_store index f chain) = chain_store index f chain
  | [] => by simp [chain_store, hf, hff, if_info.fresh]
  | i :: next => by
    by_cases h : i.index = index
    · simp [chain_store, h, hf, hff]
    · simp [chain_store, h, chain_store_idem index f hf hff next]

theorem getOnly_registry_store (reg : Registry) (info : ifinfomsg) (attrs : Table)
    (name : List Nat) :
    ∃ i, getOnly (registry_store reg info attrs name) info.ifi_index = some i ∧
      i.flags = info.ifi_flags := by
  have hfind : getOnly (registry_store reg info attrs name) info.ifi_index =
      some (store_fields info attrs name
        (match chain_find info.ifi_index (reg (bucket info.ifi_index)) with
         | some i => i
         | none => if_info.fresh info.ifi_index)) := by
    unfold getOnly registry_store
    simp only [if_true]
    exact chain_find_store _ _ (store_fields_index info attrs name) _
  exact ⟨_, hfind, store_fields_flags _ _ _ _⟩

theorem registry_store_idem (reg : Registry) (info : ifinfomsg) (attrs : Table)
    (name : List Nat) :
    registry_store (registry_store reg info attrs name) info attrs name =
      registry_store reg info attrs name := by
  funext x
  unfold registry_store
  by_cases h : x = bucket info.ifi_index
  · simp only [h, if_true]
    exact chain_store_idem _ _ (store_fields_index info attrs name)
      (store_fields_idem info attrs name) _
  · simp only [h, if_false]

/-! ## The handler on a named live message -/

theorem decode_live_named (env : Env) (hdr : nlmsghdr) (ifname : rtattr)
    (h : live_named env hdr ifname) :
    ∃ attrs, decode env.IFLA_MAX hdr.attrs (attr_len hdr) = .ok attrs ∧
      attrs IFLA_IFNAME = some ifname := by
  obtain ⟨-, -, hwf, hmax, hlast⟩ := h
  obtain ⟨attrs, hp, ht⟩ := parse_rtattrs_of_well_formed env.IFLA_MAX hdr.attrs Table.empty _ hwf
  refine ⟨attrs, hp, ?_⟩
  rw [ht IFLA_IFNAME, hlast]
  simp [hmax]

theorem attr_len_nonneg_of_well_formed (hdr : nlmsghdr)
    (h : well_formed hdr.attrs (attr_len hdr)) : 0 ≤ attr_len hdr := by
  rw [← h.2]
  exact Int.natCast_nonneg _

theorem handle_interface_live (env : Env) (reg : Registry) (hdr : nlmsghdr)
    (ifname : rtattr) (h : live_named env hdr ifname) :
    ∃ attrs, attrs IFLA_IFNAME = some ifname ∧
      handle_interface env reg hdr =
        if env.if_match (c_string (RTA_DATA ifname)) = false then
          ⟨.returned 0, registry_store reg hdr.info attrs (bounded_name ifname), []⟩
        else
          match getOnly reg hdr.info.ifi_index with
          | none =>
            ⟨.returned 0, reg, [.do_log LOG_ERR "if_info_get_interface returned NULL"]⟩
          | some i =>
            ⟨.returned 0, registry_store reg hdr.info attrs (bounded_name ifname),
              if i.flags = hdr.info.ifi_flags then []
              else transitions env (c_string (RTA_DATA ifname)) i hdr.info⟩ := by
  obtain ⟨attrs, hp, hn⟩ := decode_live_named env hdr ifname h
  exact ⟨attrs, hn, handle_interface_decoded env reg hdr attrs ifname h.1 h.2.1
    (attr_len_nonneg_of_well_formed hdr h.2.2.1) hp hn⟩

/-- The hook decisions among the edge-triggered calls. -/
theorem hook_decisions_transitions (env : Env) (name : List Nat) (i : if_info)
    (info : ifinfomsg) :
    hook_decisions (transitions env name i info) =
      (if flag_was_set i info IFF_RUNNING then [Event.run_netplug_bg name "in"] else [])
        ++ (if flag_was_unset i info IFF_RUNNING then [Event.run_netplug_bg name "out"]
            else []) := by
  unfold hook_decisions transitions
  cases flag_was_set i info IFF_RUNNING <;> cases flag_was_unset i info IFF_RUNNING <;>
    cases flag_was_unset i info IFF_UP <;> by_cases hp : env.try_probe name = 0 <;>
    simp [hp]

/-- The reprobe calls among the edge-triggered calls. -/
theorem reprobe_calls_transitions (env : Env) (name : List Nat) (i : if_info)
    (info : ifinfomsg) :
    reprobe_calls (transitions env name i info) =
      if flag_was_unset i info IFF_UP then [Event.try_probe name] else [] := by
  unfold reprobe_calls transitions
  cases flag_was_set i info IFF_RUNNING <;> cases flag_was_unset i info IFF_RUNNING <;>
    cases flag_was_unset i info IFF_UP <;> by_cases hp : env.try_probe name = 0 <;>
    simp [hp]

/-- Every message either leaves the registry alone and sends out neither a hook decision
nor a reprobe call, whatever the registry, or it decodes to a table with a name
attribute. -/
theorem handle_interface_cases (env : Env) (hdr : nlmsghdr) :
    (∀ reg, (handle_interface env reg hdr).registry = reg ∧
        hook_decisions (handle_interface env reg hdr).trace = [] ∧
        reprobe_calls (handle_interface env reg hdr).trace = []) ∨
      (∃ attrs ifname,
        (hdr.nlmsg_type = RTM_NEWLINK ∨ hdr.nlmsg_type = RTM_DELLINK) ∧
        hdr.info.ifi_flags &&& IFF_LOOPBACK = 0 ∧
        0 ≤ attr_len hdr ∧
        decode env.IFLA_MAX hdr.attrs (attr_len hdr) = .ok attrs ∧
        attrs IFLA_IFNAME = some ifname) := by
  by_cases h1 : hdr.nlmsg_type ≠ RTM_NEWLINK ∧ hdr.nlmsg_type ≠ RTM_DELLINK
  · left
    intro reg
    simp [handle_interface, h1, hook_decisions, reprobe_calls]
  by_cases h2 : hdr.info.ifi_flags &&& IFF_LOOPBACK = 0
  swap
  · left
    intro reg
    simp [handle_interface, h1, h2, hook_decisions, reprobe_calls]
  by_cases h3 : attr_len hdr < 0
  · left
    intro reg
    simp [handle_interface, h1, h2, h3, hook_decisions, reprobe_calls]
  cases hp : decode env.IFLA_MAX hdr.attrs (attr_len hdr) with
  | error how =>
    left
    intro reg
    simp [handle_interface, h1, h2, h3, hp, hook_decisions, reprobe_calls]
  | ok attrs =>
    cases hn : attrs IFLA_IFNAME with
    | none =>
      left
      intro reg
      simp [handle_interface, h1, h2, h3, hp, hn, hook_decisions, reprobe_calls]
    | some ifname =>
      right
      refine ⟨attrs, ifname, ?_, h2, not_lt.mp h3, rfl, hn⟩
      by_contra hc
      exact h1 ⟨fun e => hc (Or.inl e), fun e => hc (Or.inr e)⟩

/-! ## The claims -/

/-- C1: for a new-link or del-link message that is not loopback, is well formed, carries
a name the filter accepts and whose index has a record, if the RUNNING bit is clear in
the stored flags and set in the message's flags, then the hook decisions of the call are
exactly the one decision `("in", name)`, the handler returns 0, and afterwards the
record of the index holds the message's flags. -/
theorem C1_running_rise_emits_in (env : Env) (reg : Registry) (hdr : nlmsghdr)
    (ifname : rtattr) (i : if_info)
    (hlive : live_named env hdr ifname)
    (hmatch : env.if_match (c_string (RTA_DATA ifname)) = true)
    (hknown : getOnly reg hdr.info.ifi_index = some i)
    (hclear : i.flags &&& IFF_RUNNING = 0)
    (hset : hdr.info.ifi_flags &&& IFF_RUNNING ≠ 0) :
    hook_decisions (handle_interface env reg hdr).trace =
        [Event.run_netplug_bg (c_string (RTA_DATA ifname)) "in"] ∧
      (handle_interface env reg hdr).outcome = Outcome.returned 0 ∧
      ∃ i1, getOnly (handle_interface env reg hdr).registry hdr.info.ifi_index = some i1 ∧
        i1.flags = hdr.info.ifi_flags := by
  obtain ⟨attrs, -, heq⟩ := handle_interface_live env reg hdr ifname hlive
  have hne : i.flags ≠ hdr.info.ifi_flags := fun e => hset (e ▸ hclear)
  rw [heq]
  simp only [hmatch, hknown, hne, if_false, Bool.true_eq_false]
  refine ⟨?_, ?_, getOnly_registry_store reg hdr.info attrs (bounded_name ifname)⟩
  · rw [hook_decisions_transitions]
    simp [flag_was_set, flag_was_unset, hclear, hset]
  · trivial

/-- C1 on the scenario of the spec: index 3, `eth0`, stored flags UP, new flags UP and
RUNNING. -/
theorem C1_running_rise_emits_in_witness :
    live_named eth_only (link_msg RTM_NEWLINK 3 (IFF_UP ||| IFF_RUNNING) [name_attr "eth0"])
        (name_attr "eth0") ∧
      getOnly after_dump 3 = some (eth0_record IFF_UP) ∧
      (hook_decisions (handle_interface eth_only after_dump
          (link_msg RTM_NEWLINK 3 (IFF_UP ||| IFF_RUNNING) [name_attr "eth0"])).trace =
          [Event.run_netplug_bg [101, 116, 104, 48] "in"] ∧
        (handle_interface eth_only after_dump
          (link_msg RTM_NEWLINK 3 (IFF_UP ||| IFF_RUNNING) [name_attr "eth0"])).outcome =
          Outcome.returned 0 ∧
        ∃ i1, getOnly (handle_interface eth_only after_dump
            (link_msg RTM_NEWLINK 3 (IFF_UP ||| IFF_RUNNING) [name_attr "eth0"])).registry 3 =
            some i1 ∧ i1.flags = IFF_UP ||| IFF_RUNNING) :=
  ⟨by decide, by decide,
    C1_running_rise_emits_in eth_only after_dump
      (link_msg RTM_NEWLINK 3 (IFF_UP ||| IFF_RUNNING) [name_attr "eth0"]) (name_attr "eth0")
      (eth0_record IFF_UP)
      (by decide) (by decide) (by decide) (by decide) (by decide)⟩

/-- C2: for a new-link or del-link message that is not loopback, is well formed, carries
a name the filter accepts and whose index has a record, if the RUNNING bit is set in the
stored flags and clear in the message's flags, then the hook decisions of the call are
exactly the one decision `("out", name)`, and no `"in"` decision is in the trace. -/
theorem C2_running_fall_emits_out (env : Env) (reg : Registry) (hdr : nlmsghdr)
    (ifname : rtattr) (i : if_info)
    (hlive : live_named env hdr ifname)
    (hmatch : env.if_match (c_string (RTA_DATA ifname)) = true)
    (hknown : getOnly reg hdr.info.ifi_index = some i)
    (hset : i.flags &&& IFF_RUNNING ≠ 0)
    (hclear : hdr.info.ifi_flags &&& IFF_RUNNING = 0) :
    hook_decisions (handle_interface env reg hdr).trace =
        [Event.run_netplug_bg (c_string (RTA_DATA ifname)) "out"] ∧
      ∀ name, Event.run_netplug_bg name "in" ∉ (handle_interface env reg hdr).trace := by
  obtain ⟨attrs, -, heq⟩ := handle_interface_live env reg hdr ifname hlive
  have hne : i.flags ≠ hdr.info.ifi_flags := fun e => hset (e ▸ hclear)
  have hhooks : hook_decisions (handle_interface env reg hdr).trace =
      [Event.run_netplug_bg (c_string (RTA_DATA ifname)) "out"] := by
    rw [heq]
    simp only [hmatch, hknown, hne, if_false, Bool.true_eq_false]
    rw [hook_decisions_transitions]
    simp [flag_was_set, flag_was_unset, hclear, hset]
  refine ⟨hhooks, ?_⟩
  intro name hmem
  have hin : Event.run_netplug_bg name "in" ∈
      hook_decisions (handle_interface env reg hdr).trace := by
    unfold hook_decisions
    exact List.mem_filter.mpr ⟨hmem, rfl⟩
  rw [hhooks] at hin
  simp at hin

/-- C2 on the scenario of the spec: index 3, `eth0`, stored flags UP and RUNNING, new
flags empty. -/
theorem C2_running_fall_emits_out_witness :
    live_named eth_only (link_msg RTM_NEWLINK 3 0 [name_attr "eth0"]) (name_attr "eth0") ∧
      getOnly after_dump_running 3 = some (eth0_record (IFF_UP ||| IFF_RUNNING)) ∧
      (hook_decisions (handle_interface eth_only after_dump_running
          (link_msg RTM_NEWLINK 3 0 [name_attr "eth0"])).trace =
          [Event.run_netplug_bg [101, 116, 104, 48] "out"] ∧
        ∀ name, Event.run_netplug_bg name "in" ∉ (handle_interface eth_only
          after_dump_running (link_msg RTM_NEWLINK 3 0 [name_attr "eth0"])).trace) :=
  ⟨by decide, by decide,
    C2_running_fall_emits_out eth_only after_dump_running
      (link_msg RTM_NEWLINK 3 0 [name_attr "eth0"]) (name_attr "eth0")
      (eth0_record (IFF_UP ||| IFF_RUNNING))
      (by decide) (by decide) (by decide) (by decide) (by decide)⟩

/-- C3: for a new-link or del-link message that is not loopback, is well formed, carries
a name the filter accepts and whose index has a record, if the UP bit is set in the
stored flags and clear in the message's flags, then the reprobe collaborator is called
exactly once, for that name; the call comes after every hook decision of the message
(nothing but a log line follows it, and no reprobe precedes it); and whatever
`try_probe` returns, failure included, the handler returns 0 and the record of the index
holds the message's flags afterwards. -/
theorem C3_up_fall_reprobes_once (env : Env) (reg : Registry) (hdr : nlmsghdr)
    (ifname : rtattr) (i : if_info)
    (hlive : live_named env hdr ifname)
    (hmatch : env.if_match (c_string (RTA_DATA ifname)) = true)
    (hknown : getOnly reg hdr.info.ifi_index = some i)
    (hset : i.flags &&& IFF_UP ≠ 0)
    (hclear : hdr.info.ifi_flags &&& IFF_UP = 0) :
    reprobe_calls (handle_interface env reg hdr).trace =
        [Event.try_probe (c_string (RTA_DATA ifname))] ∧
      (∃ before after,
        (handle_interface env reg hdr).trace =
          before ++ [Event.try_probe (c_string (RTA_DATA ifname))] ++ after ∧
        reprobe_calls before = [] ∧
        hook_decisions after = [] ∧
        hook_decisions before = hook_decisions (handle_interface env reg hdr).trace) ∧
      (handle_interface env reg hdr).outcome = Outcome.returned 0 ∧
      ∃ i1, getOnly (handle_interface env reg hdr).registry hdr.info.ifi_index = some i1 ∧
        i1.flags = hdr.info.ifi_flags := by
  obtain ⟨attrs, -, heq⟩ := handle_interface_live env reg hdr ifname hlive
  have hne : i.flags ≠ hdr.info.ifi_flags := fun e => hset (e ▸ hclear)
  have hunset : flag_was_unset i hdr.info IFF_UP = true := by
    simp [flag_was_unset, hset, hclear]
  rw [heq]
  simp only [hmatch, hknown, hne, if_false, Bool.true_eq_false]
  refine ⟨?_, ?_, ?_, getOnly_registry_store reg hdr.info attrs (bounded_name ifname)⟩
  · rw [reprobe_calls_transitions, hunset]
    rfl
  · refine ⟨[Event.do_log LOG_INFO "%s: flags 0x%08x -> 0x%08x"]
        ++ (if flag_was_set i hdr.info IFF_RUNNING then
              [Event.run_netplug_bg (c_string (RTA_DATA ifname)) "in"] else [])
        ++ (if flag_was_unset i hdr.info IFF_RUNNING then
              [Event.run_netplug_bg (c_string (RTA_DATA ifname)) "out"] else []),
      (if env.try_probe (c_string (RTA_DATA ifname)) = 0 then
        [Event.do_log LOG_WARNING "Could not bring %s back up"] else []), ?_, ?_, ?_, ?_⟩
    · simp [transitions, hunset]
    · cases flag_was_set i hdr.info IFF_RUNNING <;>
        cases flag_was_unset i hdr.info IFF_RUNNING <;> simp [reprobe_calls]
    · by_cases hp : env.try_probe (c_string (RTA_DATA ifname)) = 0 <;>
        simp [hook_decisions, hp]
    · rw [hook_decisions_transitions]
      cases flag_was_set i hdr.info IFF_RUNNING <;>
        cases flag_was_unset i hdr.info IFF_RUNNING <;> simp [hook_decisions]
  · trivial

/-- C3 on the scenario of the spec: index 3, `eth0`, stored flags UP and RUNNING, new
flags empty, with a reprobe that fails. -/
theorem C3_up_fall_reprobes_once_witness :
    live_named eth_only (link_msg RTM_NEWLINK 3 0 [name_attr "eth0"]) (name_attr "eth0") ∧
      eth_only.try_probe [101, 116, 104, 48] = 0 ∧
      (reprobe_calls (handle_interface eth_only after_dump_running
          (link_msg RTM_NEWLINK 3 0 [name_attr "eth0"])).trace =
          [Event.try_probe [101, 116, 104, 48]] ∧
        (∃ before after,
          (handle_interface eth_only after_dump_running
            (link_msg RTM_NEWLINK 3 0 [name_attr "eth0"])).trace =
            before ++ [Event.try_probe [101, 116, 104, 48]] ++ after ∧
          reprobe_calls before = [] ∧
          hook_decisions after = [] ∧
          hook_decisions before = hook_decisions (handle_interface eth_only
            after_dump_running (link_msg RTM_NEWLINK 3 0 [name_attr "eth0"])).trace) ∧
        (handle_interface eth_only after_dump_running
          (link_msg RTM_NEWLINK 3 0 [name_attr "eth0"])).outcome = Outcome.returned 0 ∧
        ∃ i1, getOnly (handle_interface eth_only after_dump_running
            (link_msg RTM_NEWLINK 3 0 [name_attr "eth0"])).registry 3 = some i1 ∧
          i1.flags = 0) :=
  ⟨by decide, by decide,
    C3_up_fall_reprobes_once eth_only after_dump_running
      (link_msg RTM_NEWLINK 3 0 [name_attr "eth0"]) (name_attr "eth0")
      (eth0_record (IFF_UP ||| IFF_RUNNING))
      (by decide) (by decide) (by decide) (by decide) (by decide)⟩

/-- C4: for every message whose index has a record with stored flags F1, F2 being the
message's flags: no hook decision is sent when the RUNNING bit is the same in F1 and F2;
no reprobe call is made when the UP bit is the same in F1 and F2 or goes from clear to
set; and when F1 = F2, or RUNNING and UP are both unchanged, neither a hook decision nor
a reprobe call is sent. -/
theorem C4_no_edge_no_action (env : Env) (reg : Registry) (hdr : nlmsghdr) (i : if_info)
    (hknown : getOnly reg hdr.info.ifi_index = some i) :
    (i.flags &&& IFF_RUNNING = hdr.info.ifi_flags &&& IFF_RUNNING →
        hook_decisions (handle_interface env reg hdr).trace = []) ∧
      ((i.flags &&& IFF_UP = hdr.info.ifi_flags &&& IFF_UP ∨
          (i.flags &&& IFF_UP = 0 ∧ hdr.info.ifi_flags &&& IFF_UP ≠ 0)) →
        reprobe_calls (handle_interface env reg hdr).trace = []) ∧
      ((i.flags = hdr.info.ifi_flags ∨
          (i.flags &&& IFF_RUNNING = hdr.info.ifi_flags &&& IFF_RUNNING ∧
            i.flags &&& IFF_UP = hdr.info.ifi_flags &&& IFF_UP)) →
        hook_decisions (handle_interface env reg hdr).trace = [] ∧
          reprobe_calls (handle_interface env reg hdr).trace = []) := by
  have key :
      (i.flags &&& IFF_RUNNING = hdr.info.ifi_flags &&& IFF_RUNNING →
          hook_decisions (handle_interface env reg hdr).trace = []) ∧
        ((i.flags &&& IFF_UP = hdr.info.ifi_flags &&& IFF_UP ∨ i.flags &&& IFF_UP = 0) →
          reprobe_calls (handle_interface env reg hdr).trace = []) := by
    rcases handle_interface_cases env hdr with h | ⟨attrs, ifname, h1, h2, h3, h4, h5⟩
    · exact ⟨fun _ => (h reg).2.1, fun _ => (h reg).2.2⟩
    · rw [handle_interface_decoded env reg hdr attrs ifname h1 h2 h3 h4 h5]
      cases hm : env.if_match (c_string (RTA_DATA ifname))
      · simp [hook_decisions, reprobe_calls]
      · simp only [hknown, Bool.true_eq_false, if_false]
        by_cases hf : i.flags = hdr.info.ifi_flags
        · simp [hf, hook_decisions, reprobe_calls]
        · simp only [hf, if_false]
          constructor
          · intro hr
            rw [hook_decisions_transitions]
            by_cases hz : hdr.info.ifi_flags &&& IFF_RUNNING = 0 <;>
              simp [flag_was_set, flag_was_unset, hr, hz]
          · intro hu
            rw [reprobe_calls_transitions]
            rcases hu with hu | hu
            · by_cases hz : hdr.info.ifi_flags &&& IFF_UP = 0 <;>
                simp [flag_was_unset, hu, hz]
            · simp [flag_was_unset, hu]
  refine ⟨key.1, ?_, ?_⟩
  · rintro (h | ⟨h, -⟩)
    · exact key.2 (Or.inl h)
    · exact key.2 (Or.inr h)
  · rintro (h | ⟨hr, hu⟩)
    · exact ⟨key.1 (by rw [h]), key.2 (Or.inl (by rw [h]))⟩
    · exact ⟨key.1 hr, key.2 (Or.inl hu)⟩

/-- C4 on a matching, known interface whose flags change only outside RUNNING and UP
(stored UP, new UP and MULTICAST): no hook decision and no reprobe call. -/
theorem C4_no_edge_no_action_witness :
    getOnly after_dump 3 = some (eth0_record IFF_UP) ∧
      live_named eth_only (link_msg RTM_NEWLINK 3 (IFF_UP ||| 0x1000) [name_attr "eth0"])
        (name_attr "eth0") ∧
      eth_only.if_match [101, 116, 104, 48] = true ∧
      (eth0_record IFF_UP).flags ≠ IFF_UP ||| 0x1000 ∧
      hook_decisions (handle_interface eth_only after_dump
        (link_msg RTM_NEWLINK 3 (IFF_UP ||| 0x1000) [name_attr "eth0"])).trace = [] ∧
      reprobe_calls (handle_interface eth_only after_dump
        (link_msg RTM_NEWLINK 3 (IFF_UP ||| 0x1000) [name_attr "eth0"])).trace = [] :=
  ⟨by decide, by decide, by decide, by decide,
    (C4_no_edge_no_action eth_only after_dump
      (link_msg RTM_NEWLINK 3 (IFF_UP ||| 0x1000) [name_attr "eth0"]) (eth0_record IFF_UP)
      (by decide)).2.2 (Or.inr ⟨by decide, by decide⟩)⟩

/-- C5: processing a message a second time, right after the first processing, sends out
no hook decision and no reprobe call and leaves the registry as the first processing
left it.  This holds for every registry and every message, in particular for those the
handler takes through to the state refresh. -/
theorem C5_second_delivery_is_silent (env : Env) (reg : Registry) (hdr : nlmsghdr) :
    hook_decisions
        (handle_interface env (handle_interface env reg hdr).registry hdr).trace = [] ∧
      reprobe_calls
        (handle_interface env (handle_interface env reg hdr).registry hdr).trace = [] ∧
      (handle_interface env (handle_interface env reg hdr).registry hdr).registry =
        (handle_interface env reg hdr).registry := by
  rcases handle_interface_cases env hdr with h | ⟨attrs, ifname, h1, h2, h3, h4, h5⟩
  · exact ⟨(h _).2.1, (h _).2.2, (h _).1⟩
  · have hd := fun r => handle_interface_decoded env r hdr attrs ifname h1 h2 h3 h4 h5
    obtain ⟨i1, hg1, hf1⟩ := getOnly_registry_store reg hdr.info attrs (bounded_name ifname)
    have hidem := registry_store_idem reg hdr.info attrs (bounded_name ifname)
    cases hm : env.if_match (c_string (RTA_DATA ifname))
    · have e1 : handle_interface env reg hdr =
          ⟨.returned 0, registry_store reg hdr.info attrs (bounded_name ifname), []⟩ := by
        rw [hd reg]; simp [hm]
      rw [e1]
      simp only []
      rw [hd]
      simp [hm, hidem, hook_decisions, reprobe_calls]
    · cases hg : getOnly reg hdr.info.ifi_index with
      | none =>
        have e1 : handle_interface env reg hdr =
            ⟨.returned 0, reg, [.do_log LOG_ERR "if_info_get_interface returned NULL"]⟩ := by
          rw [hd reg]; simp [hm, hg]
        rw [e1]
        simp only []
        rw [e1]
        simp [hook_decisions, reprobe_calls]
      | some i =>
        have e1 : (handle_interface env reg hdr).registry =
            registry_store reg hdr.info attrs (bounded_name ifname) := by
          rw [hd reg]; simp [hm, hg]
        rw [e1, hd]
        simp [hm, hg1, hf1, hidem, hook_decisions, reprobe_calls]

/-- C6: for a new-link or del-link message that is not loopback, is well formed and
carries a name the filter rejects, the handler sends out nothing (no hook decision, no
reprobe call), whatever the stored and the new flags, returns 0, and afterwards the
record of the message's index holds the message's flags. -/
theorem C6_filtered_name_refreshes_silently (env : Env) (reg : Registry) (hdr : nlmsghdr)
    (ifname : rtattr)
    (hlive : live_named env hdr ifname)
    (hreject : env.if_match (c_string (RTA_DATA ifname)) = false) :
    hook_decisions (handle_interface env reg hdr).trace = [] ∧
      reprobe_calls (handle_interface env reg hdr).trace = [] ∧
      (handle_interface env reg hdr).outcome = Outcome.returned 0 ∧
      ∃ i1, getOnly (handle_interface env reg hdr).registry hdr.info.ifi_index = some i1 ∧
        i1.flags = hdr.info.ifi_flags := by
  obtain ⟨attrs, -, heq⟩ := handle_interface_live env reg hdr ifname hlive
  rw [heq]
  simp only [hreject, if_true]
  refine ⟨?_, ?_, ?_, getOnly_registry_store reg hdr.info attrs (bounded_name ifname)⟩ <;>
    trivial

/-- C6 on the scenario of the spec: pattern list `eth*`, a message for `wlan0` at an
index without a record. -/
theorem C6_filtered_name_refreshes_silently_witness :
    live_named eth_only (link_msg RTM_NEWLINK 4 (IFF_UP ||| IFF_RUNNING) [name_attr "wlan0"])
        (name_attr "wlan0") ∧
      name_filter [glob_of "eth*"] (c_string (c_bytes "wlan0")) = false ∧
      name_filter [glob_of "eth*"] (c_string (c_bytes "eth0")) = true ∧
      getOnly after_dump 4 = none ∧
      (hook_decisions (handle_interface eth_only after_dump
          (link_msg RTM_NEWLINK 4 (IFF_UP ||| IFF_RUNNING) [name_attr "wlan0"])).trace = [] ∧
        reprobe_calls (handle_interface eth_only after_dump
          (link_msg RTM_NEWLINK 4 (IFF_UP ||| IFF_RUNNING) [name_attr "wlan0"])).trace = [] ∧
        (handle_interface eth_only after_dump
          (link_msg RTM_NEWLINK 4 (IFF_UP ||| IFF_RUNNING) [name_attr "wlan0"])).outcome =
          Outcome.returned 0 ∧
        ∃ i1, getOnly (handle_interface eth_only after_dump
            (link_msg RTM_NEWLINK 4 (IFF_UP ||| IFF_RUNNING) [name_attr "wlan0"])).registry 4 =
            some i1 ∧ i1.flags = IFF_UP ||| IFF_RUNNING) :=
  ⟨by decide, by decide, by decide, by decide,
    C6_filtered_name_refreshes_silently eth_only after_dump
      (link_msg RTM_NEWLINK 4 (IFF_UP ||| IFF_RUNNING) [name_attr "wlan0"])
      (name_attr "wlan0") (by decide) (by decide)⟩

/-- C7: for a message the handler takes as far as the name check, that is a new-link or
del-link message that is not loopback and whose attribute stream is well formed, and
that holds no name attribute, the handler ends the process with `exit(1)` after the one
log line instead of returning; the registry is as before. -/
theorem C7_missing_name_exits (env : Env) (reg : Registry) (hdr : nlmsghdr)
    (htype : hdr.nlmsg_type = RTM_NEWLINK ∨ hdr.nlmsg_type = RTM_DELLINK)
    (hloop : hdr.info.ifi_flags &&& IFF_LOOPBACK = 0)
    (hwf : well_formed hdr.attrs (attr_len hdr))
    (hnone : last_of_type IFLA_IFNAME hdr.attrs = none) :
    (handle_interface env reg hdr).outcome = Outcome.stopped (Stop.exit 1) ∧
      (handle_interface env reg hdr).trace = [Event.do_log LOG_ERR "No interface name"] ∧
      (handle_interface env reg hdr).registry = reg := by
  obtain ⟨attrs, hp, ht⟩ :=
    parse_rtattrs_of_well_formed env.IFLA_MAX hdr.attrs Table.empty _ hwf
  have hn : attrs IFLA_IFNAME = none := by
    rw [ht IFLA_IFNAME, hnone]
    simp [Table.empty]
  have h1 : ¬ (hdr.nlmsg_type ≠ RTM_NEWLINK ∧ hdr.nlmsg_type ≠ RTM_DELLINK) := by
    rcases htype with h | h <;> simp [h]
  have h2 : ¬ attr_len hdr < 0 := not_lt.mpr (attr_len_nonneg_of_well_formed hdr hwf)
  simp [handle_interface, decode, h1, hloop, h2, hp, hn]

/-- C7 on a del-link message for index 3 that carries only a hardware address. -/
theorem C7_missing_name_exits_witness :
    well_formed dellink_without_name.attrs (attr_len dellink_without_name) ∧
      last_of_type IFLA_IFNAME dellink_without_name.attrs = none ∧
      ((handle_interface eth_only after_dump dellink_without_name).outcome =
          Outcome.stopped (Stop.exit 1) ∧
        (handle_interface eth_only after_dump dellink_without_name).trace =
          [Event.do_log LOG_ERR "No interface name"] ∧
        (handle_interface eth_only after_dump dellink_without_name).registry = after_dump) :=
  ⟨by decide, by decide,
    C7_missing_name_exits eth_only after_dump dellink_without_name
      (by decide) (by decide) (by decide) (by decide)⟩

/-- C8: for a new-link or del-link message that is not loopback, is well formed, carries
a name the filter accepts and whose index has no record, the handler sends out no hook
decision and no reprobe call (only the log line), leaves the registry as it was, so
that the index still has no record, and returns 0 without ending the process. -/
theorem C8_unknown_interface_is_skipped (env : Env) (reg : Registry) (hdr : nlmsghdr)
    (ifname : rtattr)
    (hlive : live_named env hdr ifname)
    (hmatch : env.if_match (c_string (RTA_DATA ifname)) = true)
    (hunknown : getOnly reg hdr.info.ifi_index = none) :
    hook_decisions (handle_interface env reg hdr).trace = [] ∧
      reprobe_calls (handle_interface env reg hdr).trace = [] ∧
      (handle_interface env reg hdr).trace =
        [Event.do_log LOG_ERR "if_info_get_interface returned NULL"] ∧
      (handle_interface env reg hdr).registry = reg ∧
      getOnly (handle_interface env reg hdr).registry hdr.info.ifi_index = none ∧
      (handle_interface env reg hdr).outcome = Outcome.returned 0 := by
  obtain ⟨attrs, -, heq⟩ := handle_interface_live env reg hdr ifname hlive
  rw [heq]
  simp only [hmatch, hunknown, Bool.true_eq_false, if_false]
  refine ⟨?_, ?_, ?_, ?_, ?_, ?_⟩ <;> trivial

/-- C8 on a message for `eth1`, index 5, after a dump that saw only index 3. -/
theorem C8_unknown_interface_is_skipped_witness :
    live_named eth_only (link_msg RTM_NEWLINK 5 (IFF_UP ||| IFF_RUNNING) [name_attr "eth1"])
        (name_attr "eth1") ∧
      eth_only.if_match (c_string (c_bytes "eth1")) = true ∧
      getOnly after_dump 5 = none ∧
      (hook_decisions (handle_interface eth_only after_dump
          (link_msg RTM_NEWLINK 5 (IFF_UP ||| IFF_RUNNING) [name_attr "eth1"])).trace = [] ∧
        reprobe_calls (handle_interface eth_only after_dump
          (link_msg RTM_NEWLINK 5 (IFF_UP ||| IFF_RUNNING) [name_attr "eth1"])).trace = [] ∧
        (handle_interface eth_only after_dump
          (link_msg RTM_NEWLINK 5 (IFF_UP ||| IFF_RUNNING) [name_attr "eth1"])).trace =
          [Event.do_log LOG_ERR "if_info_get_interface returned NULL"] ∧
        (handle_interface eth_only after_dump
          (link_msg RTM_NEWLINK 5 (IFF_UP ||| IFF_RUNNING) [name_attr "eth1"])).registry =
          after_dump ∧
        getOnly (handle_interface eth_only after_dump
          (link_msg RTM_NEWLINK 5 (IFF_UP ||| IFF_RUNNING) [name_attr "eth1"])).registry 5 =
          none ∧
        (handle_interface eth_only after_dump
          (link_msg RTM_NEWLINK 5 (IFF_UP ||| IFF_RUNNING) [name_attr "eth1"])).outcome =
          Outcome.returned 0) :=
  ⟨by decide, by decide, by decide,
    C8_unknown_interface_is_skipped eth_only after_dump
      (link_msg RTM_NEWLINK 5 (IFF_UP ||| IFF_RUNNING) [name_attr "eth1"]) (name_attr "eth1")
      (by decide) (by decide) (by decide)⟩

/-- C9: for every message whose flags have the LOOPBACK bit set, whatever its type,
length, attributes and name, the handler sends out nothing, leaves the registry as it
was and returns 0. -/
theorem C9_loopback_is_ignored (env : Env) (reg : Registry) (hdr : nlmsghdr)
    (hloop : hdr.info.ifi_flags &&& IFF_LOOPBACK ≠ 0) :
    (handle_interface env reg hdr).trace = [] ∧
      (handle_interface env reg hdr).registry = reg ∧
      (handle_interface env reg hdr).outcome = Outcome.returned 0 := by
  by_cases h1 : hdr.nlmsg_type ≠ RTM_NEWLINK ∧ hdr.nlmsg_type ≠ RTM_DELLINK
  · simp [handle_interface, h1]
  · simp [handle_interface, h1, hloop]

/-- C9 on a loopback message whose declared length is shorter than its headers. -/
theorem C9_loopback_is_ignored_witness :
    short_loopback_msg.info.ifi_flags &&& IFF_LOOPBACK ≠ 0 ∧
      attr_len short_loopback_msg < 0 ∧
      ((handle_interface eth_only after_dump short_loopback_msg).trace = [] ∧
        (handle_interface eth_only after_dump short_loopback_msg).registry = after_dump ∧
        (handle_interface eth_only after_dump short_loopback_msg).outcome =
          Outcome.returned 0) :=
  ⟨by decide, by decide,
    C9_loopback_is_ignored eth_only after_dump short_loopback_msg (by decide)⟩

/-- C10: on a well-formed stream (every record's declared length is at least the header
size, and the aligned record sizes sum to the declared length), for every `max`,
`parse_rtattrs` started on the empty table does not abort and returns a table in which
each type up to `max` holds the last record of that type in the stream, `NULL` when there
is none, and every type above `max` holds `NULL`. -/
theorem C10_decoder_last_wins (max : Int) (rta : List rtattr) (len : Int)
    (hwf : well_formed rta len) :
    ∃ tb, parse_rtattrs Table.empty max rta len = Except.ok tb ∧
      ∀ t : Nat, tb t = if (t : Int) ≤ max then last_of_type t rta else none := by
  obtain ⟨tb, hp, ht⟩ := parse_rtattrs_of_well_formed max rta Table.empty len hwf
  refine ⟨tb, hp, fun t => ?_⟩
  rw [ht t]
  by_cases h : (t : Int) ≤ max
  · simp only [h, if_true]
    cases last_of_type t rta <;> rfl
  · simp only [h, if_false]
    rfl

/-- C10 on a stream with two names, an address and a record of type 20, decoded with
`max = 11`: the second name wins, the record of type 20 is dropped. -/
theorem C10_decoder_last_wins_witness :
    well_formed sample_stream 40 ∧
      last_of_type IFLA_IFNAME sample_stream = some (name_attr "eth1") ∧
      last_of_type 20 sample_stream = some ⟨4, 20, []⟩ ∧
      ∃ tb, parse_rtattrs Table.empty 11 sample_stream 40 = Except.ok tb ∧
        ∀ t : Nat, tb t = if (t : Int) ≤ 11 then last_of_type t sample_stream else none :=
  ⟨by decide, by decide, by decide, C10_decoder_last_wins 11 sample_stream 40 (by decide)⟩

/-! ## The decoder loop and the abort -/

/-- The decoder aborts exactly when the loop is left with a nonzero length, and returns
its table exactly when the loop is left with length zero. -/
theorem parse_rtattrs_by_remaining (max : Int) :
    ∀ (rta : List rtattr) (tb : Table) (len : Int),
      (parse_rtattrs tb max rta len = .error .abort ↔
        ∃ rem, walk_remaining rta len = .ok rem ∧ rem ≠ 0) ∧
      (∀ tbl, parse_rtattrs tb max rta len = .ok tbl → walk_remaining rta len = .ok 0) := by
  intro rta
  induction rta with
  | nil =>
    intro tb len
    by_cases h4 : (sizeof_rtattr : Int) ≤ len
    · simp [parse_rtattrs, walk_remaining, h4]
    · by_cases h0 : len = 0
      · subst h0
        simp [parse_rtattrs, walk_remaining, sizeof_rtattr]
      · simp [parse_rtattrs, walk_remaining, h4, h0]
  | cons r next ih =>
    intro tb len
    by_cases hok : RTA_OK r len = true
    · simp only [parse_rtattrs, walk_remaining, hok, if_true]
      exact ih _ _
    · by_cases h0 : len = 0
      · subst h0
        simp [parse_rtattrs, walk_remaining, hok]
      · simp [parse_rtattrs, walk_remaining, hok, h0]

/-- Over a prefix of records that each declare at least a header and whose aligned sizes
fit in the length, the loop runs through the prefix. -/
theorem walk_remaining_append (rest : List rtattr) :
    ∀ (pre : List rtattr) (len : Int),
      (∀ r ∈ pre, sizeof_rtattr ≤ r.rta_len) →
      (((pre.map (fun r => RTA_ALIGN r.rta_len)).sum : Nat) : Int) ≤ len →
      walk_remaining (pre ++ rest) len =
        walk_remaining rest (len - ((pre.map (fun r => RTA_ALIGN r.rta_len)).sum : Nat)) := by
  intro pre
  induction pre with
  | nil =>
    intro len _ _
    simp
  | cons r pre ih =>
    intro len hall hsum
    have hr : sizeof_rtattr ≤ r.rta_len := hall r (List.mem_cons_self _ _)
    have hpre : ∀ x ∈ pre, sizeof_rtattr ≤ x.rta_len :=
      fun x hx => hall x (List.mem_cons_of_mem _ hx)
    simp only [List.map_cons, List.sum_cons, Nat.cast_add] at hsum
    have hal := RTA_ALIGN_ge r.rta_len
    have hok : RTA_OK r len = true := by
      unfold sizeof_rtattr at hr
      simp only [RTA_OK, sizeof_rtattr, Bool.and_eq_true, decide_eq_true_eq]
      omega
    rw [List.cons_append]
    simp only [walk_remaining, hok, if_true, List.map_cons, List.sum_cons, Nat.cast_add]
    rw [ih _ hpre (by omega)]
    congr 1
    omega

/-- C11: `parse_rtattrs` aborts if and only if the loop is left with a nonzero remaining
length, and returns a table only when that length is zero.  In particular it aborts on
every stream that, after a well-formed run of records, ends while bytes remain
(`0 < rem`) with a record that declares more than the remaining length, or less than a
header, or whose aligned size runs past the remaining length. -/
theorem C11_abort_iff_deficit (tb : Table) (max : Int) (rta : List rtattr) (len : Int) :
    (parse_rtattrs tb max rta len = Except.error Stop.abort ↔
        ∃ rem, walk_remaining rta len = Except.ok rem ∧ rem ≠ 0) ∧
      (∀ tbl, parse_rtattrs tb max rta len = Except.ok tbl →
        walk_remaining rta len = Except.ok 0) ∧
      (∀ (pre : List rtattr) (r : rtattr) (rem : Int),
        rta = pre ++ [r] → well_formed pre (len - rem) → 0 < rem →
        (rem < r.rta_len ∨ r.rta_len < sizeof_rtattr ∨ rem < RTA_ALIGN r.rta_len) →
        parse_rtattrs tb max rta len = Except.error Stop.abort) := by
  refine ⟨(parse_rtattrs_by_remaining max rta tb len).1,
    (parse_rtattrs_by_remaining max rta tb len).2, ?_⟩
  intro pre r rem hrta hwf hrem hbad
  subst hrta
  rw [(parse_rtattrs_by_remaining max (pre ++ [r]) tb len).1]
  obtain ⟨hall, hsum⟩ := hwf
  rw [walk_remaining_append [r] pre len hall (by omega), hsum]
  have hlen : len - (len - rem) = rem := by omega
  rw [hlen]
  by_cases hok : RTA_OK r rem = true
  · have hok2 := hok
    simp only [RTA_OK, sizeof_rtattr, Bool.and_eq_true, decide_eq_true_eq] at hok2
    have hal : rem < RTA_ALIGN r.rta_len := by
      unfold sizeof_rtattr at hbad
      rcases hbad with h | h | h
      · omega
      · omega
      · exact h
    refine ⟨rem - (RTA_ALIGN r.rta_len : Nat), ?_, by omega⟩
    have hneg : ¬ (sizeof_rtattr : Int) ≤ rem - (RTA_ALIGN r.rta_len : Nat) := by
      unfold sizeof_rtattr
      omega
    simp [walk_remaining, hok, hneg]
  · refine ⟨rem, ?_, by omega⟩
    simp [walk_remaining, hok]

/-- C11 on three streams whose first record is the name `eth0` (12 bytes): the final
record declares 20 bytes where 8 remain; it declares 2 bytes where 4 remain; it declares
5 bytes where 5 remain. -/
theorem C11_abort_iff_deficit_witness :
    well_formed [name_attr "eth0"] 12 ∧
      parse_rtattrs Table.empty 11 truncated_stream 20 = Except.error Stop.abort ∧
      parse_rtattrs Table.empty 11 runt_stream 16 = Except.error Stop.abort ∧
      parse_rtattrs Table.empty 11 unpadded_stream 17 = Except.error Stop.abort ∧
      walk_remaining unpadded_stream 17 = Except.ok (-3) :=
  ⟨by decide,
    (C11_abort_iff_deficit Table.empty 11 truncated_stream 20).2.2 [name_attr "eth0"]
      ⟨20, IFLA_ADDRESS, [1, 2, 3, 4]⟩ 8 rfl (by decide) (by decide) (Or.inl (by decide)),
    (C11_abort_iff_deficit Table.empty 11 runt_stream 16).2.2 [name_attr "eth0"]
      ⟨2, IFLA_ADDRESS, []⟩ 4 rfl (by decide) (by decide) (Or.inr (Or.inl (by decide))),
    (C11_abort_iff_deficit Table.empty 11 unpadded_stream 17).2.2 [name_attr "eth0"]
      ⟨5, IFLA_ADDRESS, [1]⟩ 5 rfl (by decide) (by decide) (Or.inr (Or.inr (by decide))),
    rfl⟩

/-! ## What the decoder can put in the table -/

/-- Every slot of the returned table is either as it was or holds a record of the stream
of the slot's type. -/
theorem parse_rtattrs_entries (max : Int) :
    ∀ (rta : List rtattr) (tb tb1 : Table) (len : Int),
      parse_rtattrs tb max rta len = .ok tb1 →
      ∀ t, tb1 t = tb t ∨ ∃ r ∈ rta, r.rta_type = t ∧ tb1 t = some r := by
  intro rta
  induction rta with
  | nil =>
    intro tb tb1 len h t
    left
    by_cases h4 : (sizeof_rtattr : Int) ≤ len
    · simp [parse_rtattrs, h4] at h
    · by_cases h0 : len = 0
      · subst h0
        simp only [parse_rtattrs, h4, if_false, ne_eq, not_true_eq_false,
          Except.ok.injEq] at h
        rw [h]
      · simp [parse_rtattrs, h4, h0] at h
  | cons r next ih =>
    intro tb tb1 len h t
    by_cases hok : RTA_OK r len = true
    · simp only [parse_rtattrs, hok, if_true] at h
      rcases ih _ tb1 _ h t with h1 | ⟨x, hx, hty, hval⟩
      · by_cases hm : (r.rta_type : Int) ≤ max
        · simp only [hm, if_true, Table.set] at h1
          by_cases ht : t = r.rta_type
          · right
            refine ⟨r, List.mem_cons_self _ _, ht.symm, ?_⟩
            rw [h1]
            simp [ht]
          · left
            rw [h1]
            simp [ht]
        · left
          simpa [hm] using h1
      · exact Or.inr ⟨x, List.mem_cons_of_mem _ hx, hty, hval⟩
    · left
      by_cases h0 : len = 0
      · subst h0
        simp only [parse_rtattrs, hok, if_false, ne_eq, not_true_eq_false,
          Bool.false_eq_true, Except.ok.injEq] at h
        rw [h]
      · simp [parse_rtattrs, hok, h0] at h

theorem last_of_type_eq_none (t : Nat) (rta : List rtattr) :
    last_of_type t rta = none ↔ ∀ r ∈ rta, r.rta_type ≠ t := by
  unfold last_of_type
  simp

/-- The registry in the result of `if_info_save_interface` is the registry before, or
the registry before with the record of the message's index stored, the name having
fitted the name field. -/
theorem if_info_save_interface_registry (max : Int) (reg : Registry) (hdr : nlmsghdr) :
    (if_info_save_interface max reg hdr).registry = reg ∨
      ∃ attrs ifname name, attrs IFLA_IFNAME = some ifname ∧
        parse_rtattrs Table.empty max hdr.attrs (attr_len hdr) = .ok attrs ∧
        strcpy sizeof_name (RTA_DATA ifname) = some name ∧
        (if_info_save_interface max reg hdr).registry =
          registry_store reg hdr.info attrs name := by
  unfold if_info_save_interface
  by_cases h1 : hdr.nlmsg_type ≠ RTM_NEWLINK
  · simp [h1]
  by_cases h2 : hdr.nlmsg_len < NLMSG_LENGTH sizeof_pointer
  · simp [h1, h2]
  simp only [h1, h2, if_false]
  cases hp : parse_rtattrs Table.empty max hdr.attrs (attr_len hdr) with
  | error how => simp
  | ok attrs =>
    cases hn : attrs IFLA_IFNAME with
    | none => simp [hn]
    | some ifname =>
      cases hs : strcpy sizeof_name (RTA_DATA ifname) with
      | none => simp [hn, hs]
      | some name =>
        right
        exact ⟨attrs, ifname, name, hn, rfl, hs, by simp [hn, hs]⟩

/-- The decoder writes nothing but table slots: it never ends in `Stop.overflow`. -/
theorem parse_rtattrs_never_overflows (max : Int) :
    ∀ (rta : List rtattr) (tb : Table) (len : Int),
      parse_rtattrs tb max rta len = .error .overflow → False := by
  intro rta
  induction rta with
  | nil =>
    intro tb len h
    by_cases h4 : (sizeof_rtattr : Int) ≤ len
    · simp [parse_rtattrs, h4] at h
    · by_cases h0 : len = 0
      · subst h0
        simp [parse_rtattrs, sizeof_rtattr] at h
      · simp [parse_rtattrs, h4, h0] at h
  | cons r next ih =>
    intro tb len h
    by_cases hok : RTA_OK r len = true
    · simp only [parse_rtattrs, hok, if_true] at h
      exact ih _ _ h
    · by_cases h0 : len = 0
      · subst h0
        simp [parse_rtattrs, hok] at h
      · simp [parse_rtattrs, hok, h0] at h

theorem strcpy_of_fits (size : Nat) (src : List Nat) (h : (c_string src).length < size) :
    strcpy size src = some (c_string src) := by
  simp [strcpy, h]

/-- The record in slot `t` of a table decoded from the empty table is a record of the
stream, of type `t`. -/
theorem decoded_entry_mem (max : Int) (rta : List rtattr) (attrs : Table) (len : Int)
    (hp : parse_rtattrs Table.empty max rta len = .ok attrs) (t : Nat) (r : rtattr)
    (hr : attrs t = some r) : r ∈ rta ∧ r.rta_type = t := by
  rcases parse_rtattrs_entries max rta Table.empty attrs len hp t with h | ⟨x, hx, hty, hval⟩
  · rw [hr] at h
    simp [Table.empty] at h
  · rw [hr] at hval
    have hxr : r = x := Option.some.inj hval
    rw [hxr]
    exact ⟨hx, hty⟩

/-- When every name attribute of the message fits the name field, the `strcpy` of line 77
stays inside the record: `if_info_save_interface` does not end in `Stop.overflow`. -/
theorem if_info_save_interface_fits (max : Int) (reg : Registry) (hdr : nlmsghdr)
    (hfit : names_fit hdr) :
    (if_info_save_interface max reg hdr).outcome ≠ Outcome.stopped Stop.overflow := by
  unfold if_info_save_interface
  by_cases h1 : hdr.nlmsg_type ≠ RTM_NEWLINK
  · simp [h1]
  by_cases h2 : hdr.nlmsg_len < NLMSG_LENGTH sizeof_pointer
  · simp [h1, h2]
  simp only [h1, h2, if_false]
  cases hp : parse_rtattrs Table.empty max hdr.attrs (attr_len hdr) with
  | error how =>
    cases how with
    | abort => simp
    | exit s => simp
    | overrun => simp
    | overflow =>
      exfalso
      exact parse_rtattrs_never_overflows max hdr.attrs Table.empty (attr_len hdr) hp
  | ok attrs =>
    cases hn : attrs IFLA_IFNAME with
    | none => simp [hn]
    | some ifname =>
      obtain ⟨hmem, hty⟩ := decoded_entry_mem max hdr.attrs attrs _ hp IFLA_IFNAME ifname hn
      have hs := strcpy_of_fits sizeof_name (RTA_DATA ifname) (hfit ifname hmem hty)
      simp [hn, hs]

/-- C12: `if_info_save_interface` leaves the registry as it was, and prints nothing, for
every message that is not a new-link message (it returns 0 at once) and for every message
whose attribute stream holds no record of type `IFLA_IFNAME`. -/
theorem C12_nameless_message_saves_nothing (max : Int) (reg : Registry) (hdr : nlmsghdr) :
    (hdr.nlmsg_type ≠ RTM_NEWLINK →
        (if_info_save_interface max reg hdr).registry = reg ∧
        (if_info_save_interface max reg hdr).trace = [] ∧
        (if_info_save_interface max reg hdr).outcome = Outcome.returned 0) ∧
      (last_of_type IFLA_IFNAME hdr.attrs = none →
        (if_info_save_interface max reg hdr).registry = reg ∧
        (if_info_save_interface max reg hdr).trace = []) := by
  constructor
  · intro h1
    simp [if_info_save_interface, h1]
  · intro hnone
    rw [last_of_type_eq_none] at hnone
    unfold if_info_save_interface
    by_cases h1 : hdr.nlmsg_type ≠ RTM_NEWLINK
    · simp [h1]
    by_cases h2 : hdr.nlmsg_len < NLMSG_LENGTH sizeof_pointer
    · simp [h1, h2]
    simp only [h1, h2, if_false]
    cases hp : parse_rtattrs Table.empty max hdr.attrs (attr_len hdr) with
    | error how => simp
    | ok attrs =>
      have hn : attrs IFLA_IFNAME = none := by
        rcases parse_rtattrs_entries max hdr.attrs Table.empty attrs _ hp IFLA_IFNAME with
          h | ⟨r, hr, hty, -⟩
        · rw [h]; rfl
        · exact absurd hty (hnone r hr)
      simp [hn]

/-- C12 on a del-link message and on a new-link message that carry a hardware address
and no name, after a dump that saved index 3. -/
theorem C12_nameless_message_saves_nothing_witness :
    dellink_without_name.nlmsg_type ≠ RTM_NEWLINK ∧
      newlink_without_name.nlmsg_type = RTM_NEWLINK ∧
      last_of_type IFLA_IFNAME newlink_without_name.attrs = none ∧
      ((if_info_save_interface 11 after_dump dellink_without_name).registry = after_dump ∧
        (if_info_save_interface 11 after_dump dellink_without_name).trace = [] ∧
        (if_info_save_interface 11 after_dump dellink_without_name).outcome =
          Outcome.returned 0) ∧
      ((if_info_save_interface 11 after_dump newlink_without_name).registry = after_dump ∧
        (if_info_save_interface 11 after_dump newlink_without_name).trace = []) ∧
      getOnly (if_info_save_interface 11 after_dump newlink_without_name).registry 3 =
        some (eth0_record IFF_UP) :=
  ⟨by decide, by decide, by decide,
    (C12_nameless_message_saves_nothing 11 after_dump dellink_without_name).1 (by decide),
    (C12_nameless_message_saves_nothing 11 after_dump newlink_without_name).2 (by decide),
    by decide⟩

/-! ## Chains under find-or-create -/

theorem chain_find_eq_none (index : Int) :
    ∀ chain : List if_info,
      chain_find index chain = none ↔ index ∉ chain.map (fun r => r.index)
  | [] => by simp [chain_find]
  | i :: next => by
    by_cases h : i.index = index
    · simp [chain_find, h]
    · have h2 : ¬ index = i.index := fun e => h e.symm
      simp [chain_find, h, h2, chain_find_eq_none index next]

/-- The indices of a chain after a store: unchanged when the index was found, extended
by the index at the end when it was not. -/
theorem chain_store_indices (index : Int) (f : if_info → if_info)
    (hf : ∀ i, (f i).index = i.index) :
    ∀ chain : List if_info,
      (chain_store index f chain).map (fun r => r.index) =
        if (chain_find index chain).isSome then chain.map (fun r => r.index)
        else chain.map (fun r => r.index) ++ [index]
  | [] => by simp [chain_store, chain_find, hf, if_info.fresh]
  | i :: next => by
    by_cases h : i.index = index
    · simp [chain_store, chain_find, h, hf]
    · simp only [chain_store, chain_find, h, if_false, List.map_cons,
        chain_store_indices index f hf next]
      by_cases hs : (chain_find index next).isSome = true <;> simp [hs]

theorem chain_find_store_ne (index j : Int) (f : if_info → if_info)
    (hf : ∀ i, (f i).index = i.index) (hne : j ≠ index) :
    ∀ chain : List if_info, chain_find j (chain_store index f chain) = chain_find j chain
  | [] => by
    have h2 : ¬ index = j := fun e => hne e.symm
    simp [chain_store, chain_find, hf, if_info.fresh, h2]
  | i :: next => by
    by_cases h : i.index = index
    · have h2 : ¬ i.index = j := fun e => hne (e.symm.trans h)
      have h4 : ¬ index = j := fun e => hne e.symm
      simp [chain_store, chain_find, h, hf, h2, h4]
    · by_cases h3 : i.index = j
      · simp [chain_store, chain_find, h3, hne]
      · simp [chain_store, chain_find, h, h3, chain_find_store_ne index j f hf hne next]

/-- The records of a chain whose index is not the stored one are the same records, in
the same order, after the store. -/
theorem chain_store_filter_ne (index j : Int) (f : if_info → if_info)
    (hf : ∀ i, (f i).index = i.index) (hne : j ≠ index) :
    ∀ chain : List if_info,
      (chain_store index f chain).filter (fun r => decide (r.index = j)) =
        chain.filter (fun r => decide (r.index = j))
  | [] => by
    have h2 : ¬ index = j := fun e => hne e.symm
    simp [chain_store, hf, if_info.fresh, h2]
  | i :: next => by
    by_cases h : i.index = index
    · have h2 : ¬ i.index = j := fun e => hne (e.symm.trans h)
      have h4 : ¬ index = j := fun e => hne e.symm
      simp [chain_store, h, hf, h2, h4, List.filter_cons]
    · by_cases h3 : i.index = j
      · simp [chain_store, h3, hne, List.filter_cons,
          chain_store_filter_ne index j f hf hne next]
      · simp [chain_store, h, h3, List.filter_cons,
          chain_store_filter_ne index j f hf hne next]

theorem bucket_lt (i : Int) : bucket i < 16 := by
  unfold bucket
  omega

/-! ## The registry is framed: other indices are untouched -/

theorem getOnly_registry_store_ne (reg : Registry) (info : ifinfomsg) (attrs : Table)
    (name : List Nat) (j : Int) (hne : j ≠ info.ifi_index) :
    getOnly (registry_store reg info attrs name) j = getOnly reg j := by
  unfold getOnly registry_store
  by_cases hb : bucket j = bucket info.ifi_index
  · simp only [hb, if_true]
    exact chain_find_store_ne _ _ _ (store_fields_index info attrs name) hne _
  · simp only [hb, if_false]

theorem registry_store_filter_ne (reg : Registry) (info : ifinfomsg) (attrs : Table)
    (name : List Nat) (j : Int) (hne : j ≠ info.ifi_index) (x : Nat) :
    (registry_store reg info attrs name x).filter (fun r => decide (r.index = j)) =
      (reg x).filter (fun r => decide (r.index = j)) := by
  unfold registry_store
  by_cases hb : x = bucket info.ifi_index
  · simp only [hb, if_true]
    exact chain_store_filter_ne _ _ _ (store_fields_index info attrs name) hne _
  · simp only [hb, if_false]

/-- C19: `if_info_save_interface`, on any message for index `i` whose name fits the name
field (so that the copy of line 77 stays inside the record), leaves every record whose
index `j` differs from `i` as it was: in every chain the records of index `j` are the
same records, with the same fields, in the same order, and the lookup of `j` returns
what it returned before.  This holds when `j` and `i` share their low four bits and when
`i` is negative; the bucket number `index & 0xf` lies in 0..15 for every index. -/
theorem C19_other_records_are_framed (max : Int) (reg : Registry) (hdr : nlmsghdr)
    (j : Int) (hfit : names_fit hdr) (hne : j ≠ hdr.info.ifi_index) :
    (if_info_save_interface max reg hdr).outcome ≠ Outcome.stopped Stop.overflow ∧
      getOnly (if_info_save_interface max reg hdr).registry j = getOnly reg j ∧
      (∀ x, ((if_info_save_interface max reg hdr).registry x).filter
            (fun r => decide (r.index = j)) =
          (reg x).filter (fun r => decide (r.index = j))) ∧
      (∀ i : Int, bucket i < 16) := by
  refine ⟨if_info_save_interface_fits max reg hdr hfit, ?_, ?_, bucket_lt⟩
  · rcases if_info_save_interface_registry max reg hdr with
      h | ⟨attrs, ifname, name, -, -, -, h⟩
    · rw [h]
    · rw [h]
      exact getOnly_registry_store_ne reg hdr.info attrs name j hne
  · intro x
    rcases if_info_save_interface_registry max reg hdr with
      h | ⟨attrs, ifname, name, -, -, -, h⟩
    · rw [h]
    · rw [h]
      exact registry_store_filter_ne reg hdr.info attrs name j hne x

/-- C19 on a registry that holds indices 3, 19 and -13 in one chain: saving new flags for
19, and then for -13, changes their records and leaves the record of 3 as it was. -/
theorem C19_other_records_are_framed_witness :
    bucket 3 = 3 ∧ bucket 19 = 3 ∧ bucket (-13) = 3 ∧
      names_fit (link_msg RTM_NEWLINK 19 IFF_RUNNING [name_attr "eth1"]) ∧
      getOnly colliding_dump 3 = some (eth0_record IFF_UP) ∧
      (getOnly (if_info_save_interface 11 colliding_dump
          (link_msg RTM_NEWLINK 19 IFF_RUNNING [name_attr "eth1"])).registry 19).map
          (fun r => r.flags) = some IFF_RUNNING ∧
      (getOnly (if_info_save_interface 11 colliding_dump
          (link_msg RTM_NEWLINK (-13) IFF_RUNNING [name_attr "eth2"])).registry (-13)).map
          (fun r => r.flags) = some IFF_RUNNING ∧
      getOnly (if_info_save_interface 11 colliding_dump
          (link_msg RTM_NEWLINK 19 IFF_RUNNING [name_attr "eth1"])).registry 3 =
        getOnly colliding_dump 3 ∧
      getOnly (if_info_save_interface 11 colliding_dump
          (link_msg RTM_NEWLINK (-13) IFF_RUNNING [name_attr "eth2"])).registry 3 =
        getOnly colliding_dump 3 :=
  ⟨by decide, by decide, by decide, by decide, by decide, by decide, by decide,
    (C19_other_records_are_framed 11 colliding_dump
      (link_msg RTM_NEWLINK 19 IFF_RUNNING [name_attr "eth1"]) 3 (by decide)
      (by decide)).2.1,
    (C19_other_records_are_framed 11 colliding_dump
      (link_msg RTM_NEWLINK (-13) IFF_RUNNING [name_attr "eth2"]) 3 (by decide)
      (by decide)).2.1⟩

/-! ## The registry only grows -/

/-- The indices of every chain before a store are an initial segment of the indices of
the chain after it. -/
theorem registry_store_indices_segment (reg : Registry) (info : ifinfomsg) (attrs : Table)
    (name : List Nat) (x : Nat) :
    (reg x).map (fun r => r.index) <+:
      (registry_store reg info attrs name x).map (fun r => r.index) := by
  unfold registry_store
  by_cases hb : x = bucket info.ifi_index
  · simp only [hb, if_true]
    rw [chain_store_indices _ _ (store_fields_index info attrs name)]
    by_cases hs : (chain_find info.ifi_index (reg (bucket info.ifi_index))).isSome = true
    · simp [hs]
    · simp [hs]
  · simp only [hb, if_false]
    exact List.prefix_refl _

theorem getOnly_isSome_iff (reg : Registry) (j : Int) :
    (getOnly reg j).isSome = true ↔ j ∈ (reg (bucket j)).map (fun r => r.index) := by
  unfold getOnly
  cases h : chain_find j (reg (bucket j)) with
  | none =>
    have := (chain_find_eq_none j (reg (bucket j))).mp h
    simp [this]
  | some r =>
    have hn : ¬ chain_find j (reg (bucket j)) = none := by rw [h]; simp
    have := fun hmem => hn ((chain_find_eq_none j (reg (bucket j))).mpr hmem)
    simp only [Option.isSome_some, true_iff]
    by_contra hc
    exact this hc

theorem getOnly_isSome_of_segment (reg reg1 : Registry) (j : Int)
    (hpre : ∀ x, (reg x).map (fun r => r.index) <+: (reg1 x).map (fun r => r.index))
    (h : (getOnly reg j).isSome = true) : (getOnly reg1 j).isSome = true := by
  rw [getOnly_isSome_iff] at h ⊢
  exact (hpre (bucket j)).subset h

/-- The registry after `handle_interface` is the registry before, or the registry before
with the record of the message's index stored. -/
theorem handle_interface_registry (env : Env) (reg : Registry) (hdr : nlmsghdr) :
    (handle_interface env reg hdr).registry = reg ∨
      ∃ attrs name,
        (handle_interface env reg hdr).registry =
          registry_store reg hdr.info attrs name := by
  rcases handle_interface_cases env hdr with h | ⟨attrs, ifname, h1, h2, h3, h4, h5⟩
  · exact Or.inl (h reg).1
  · rw [handle_interface_decoded env reg hdr attrs ifname h1 h2 h3 h4 h5]
    cases hm : env.if_match (c_string (RTA_DATA ifname))
    · exact Or.inr ⟨attrs, bounded_name ifname, by simp⟩
    · cases hg : getOnly reg hdr.info.ifi_index with
      | none => exact Or.inl (by simp)
      | some i => exact Or.inr ⟨attrs, bounded_name ifname, by simp⟩

/-- C14: records are never deleted.  For every registry and every message, del-link,
skipped and rejected messages included, the indices of each chain before the call are an
initial segment of the indices of the chain after the call, so every index that had a
record before the call has one after it.  For `if_info_save_interface` this is stated for
the messages whose name fits the name field, on which the copy of line 77 stays inside
the record; for `handle_interface` it holds for every message. -/
theorem C14_records_are_never_deleted (env : Env) (max : Int) (reg : Registry)
    (hdr : nlmsghdr) :
    (names_fit hdr →
        (if_info_save_interface max reg hdr).outcome ≠ Outcome.stopped Stop.overflow ∧
        (∀ x, (reg x).map (fun r => r.index) <+:
          ((if_info_save_interface max reg hdr).registry x).map (fun r => r.index)) ∧
        (∀ j, (getOnly reg j).isSome = true →
          (getOnly (if_info_save_interface max reg hdr).registry j).isSome = true)) ∧
      (∀ x, (reg x).map (fun r => r.index) <+:
        ((handle_interface env reg hdr).registry x).map (fun r => r.index)) ∧
      (∀ j, (getOnly reg j).isSome = true →
        (getOnly (handle_interface env reg hdr).registry j).isSome = true) := by
  have hsave : ∀ x, (reg x).map (fun r => r.index) <+:
      ((if_info_save_interface max reg hdr).registry x).map (fun r => r.index) := by
    intro x
    rcases if_info_save_interface_registry max reg hdr with
      h | ⟨attrs, ifname, name, -, -, -, h⟩
    · rw [h]
    · rw [h]
      exact registry_store_indices_segment reg hdr.info attrs name x
  have hlive : ∀ x, (reg x).map (fun r => r.index) <+:
      ((handle_interface env reg hdr).registry x).map (fun r => r.index) := by
    intro x
    rcases handle_interface_registry env reg hdr with h | ⟨attrs, name, h⟩
    · rw [h]
    · rw [h]
      exact registry_store_indices_segment reg hdr.info attrs name x
  exact ⟨fun hfit => ⟨if_info_save_interface_fits max reg hdr hfit, hsave,
      fun j hj => getOnly_isSome_of_segment reg _ j hsave hj⟩,
    hlive, fun j hj => getOnly_isSome_of_segment reg _ j hlive hj⟩

/-- C14 after a dump that saved index 3: the dump handler saves a new-link message for
index 5, the live handler takes a del-link message for index 3, and each time the record
of index 3 is still there. -/
theorem C14_records_are_never_deleted_witness :
    (getOnly after_dump 3).isSome = true ∧
      names_fit (link_msg RTM_NEWLINK 5 IFF_UP [name_attr "eth5"]) ∧
      (handle_interface eth_only after_dump
        (link_msg RTM_DELLINK 3 0 [name_attr "eth0"])).outcome = Outcome.returned 0 ∧
      (if_info_save_interface 11 after_dump
        (link_msg RTM_NEWLINK 5 IFF_UP [name_attr "eth5"])).outcome = Outcome.returned 0 ∧
      (getOnly (if_info_save_interface 11 after_dump
        (link_msg RTM_NEWLINK 5 IFF_UP [name_attr "eth5"])).registry 5).isSome = true ∧
      (getOnly (if_info_save_interface 11 after_dump
        (link_msg RTM_NEWLINK 5 IFF_UP [name_attr "eth5"])).registry 3).isSome = true ∧
      (getOnly (handle_interface eth_only after_dump
        (link_msg RTM_DELLINK 3 0 [name_attr "eth0"])).registry 3).isSome = true :=
  ⟨by decide, by decide, by decide, by decide, by decide,
    ((C14_records_are_never_deleted eth_only 11 after_dump
      (link_msg RTM_NEWLINK 5 IFF_UP [name_attr "eth5"])).1 (by decide)).2.2 3 (by decide),
    (C14_records_are_never_deleted eth_only 11 after_dump
      (link_msg RTM_DELLINK 3 0 [name_attr "eth0"])).2.2 3 (by decide)⟩

/-! ## Key uniqueness and the number of records -/

theorem sum_range_single (f : Nat → Nat) (b : Nat) (h : ∀ x, x ≠ b → f x = 0) :
    ∀ n, ((List.range n).map f).sum = if b < n then f b else 0
  | 0 => by simp
  | n + 1 => by
    rw [List.range_succ, List.map_append, List.sum_append, sum_range_single f b h n]
    by_cases hb : b < n
    · have hn : n ≠ b := by omega
      have hb1 : b < n + 1 := by omega
      simp [hb, hb1, h n hn]
    · by_cases hbn : b = n
      · subst hbn
        simp
      · have hn : n ≠ b := fun e => hbn e.symm
        have hb1 : ¬ b < n + 1 := by omega
        simp [hb, hb1, h n hn]

theorem sum_range_update (f g : Nat → Nat) (b : Nat) (h : ∀ x, x ≠ b → f x = g x) :
    ∀ n, b < n → ((List.range n).map f).sum + g b = ((List.range n).map g).sum + f b
  | 0 => by omega
  | n + 1 => by
    intro hb
    rw [List.range_succ, List.map_append, List.map_append, List.sum_append, List.sum_append]
    simp only [List.map_cons, List.map_nil, List.sum_cons, List.sum_nil, Nat.add_zero]
    by_cases hbn : b = n
    · subst hbn
      have hsame : (List.range b).map f = (List.range b).map g := by
        apply List.map_congr_left
        intro x hx
        have : x < b := List.mem_range.mp hx
        exact h x (by omega)
      rw [hsame]
      omega
    · have ih := sum_range_update f g b h n (by omega)
      have hn : f n = g n := h n (fun e => hbn e.symm)
      omega

theorem chain_store_length (index : Int) (f : if_info → if_info)
    (hf : ∀ i, (f i).index = i.index) (chain : List if_info) :
    (chain_store index f chain).length =
      if (chain_find index chain).isSome then chain.length else chain.length + 1 := by
  have h := congrArg List.length (chain_store_indices index f hf chain)
  by_cases hs : (chain_find index chain).isSome = true
  · simpa [hs] using h
  · simpa [hs] using h

theorem n_records_registry_store (reg : Registry) (info : ifinfomsg) (attrs : Table)
    (name : List Nat) :
    n_records (registry_store reg info attrs name) =
      if (getOnly reg info.ifi_index).isSome then n_records reg else n_records reg + 1 := by
  have hsum := sum_range_update
    (fun x => (registry_store reg info attrs name x).length) (fun x => (reg x).length)
    (bucket info.ifi_index)
    (fun x hx => by simp [registry_store, hx]) 16 (bucket_lt _)
  have hb : (registry_store reg info attrs name (bucket info.ifi_index)).length =
      if (getOnly reg info.ifi_index).isSome then (reg (bucket info.ifi_index)).length
      else (reg (bucket info.ifi_index)).length + 1 := by
    unfold getOnly registry_store
    simp only [if_true]
    exact chain_store_length _ _ (store_fields_index info attrs name) _
  unfold n_records
  simp only [] at hsum
  by_cases hs : (getOnly reg info.ifi_index).isSome = true
  · simp only [hs, if_true] at hb ⊢
    omega
  · simp only [hs, if_false, Bool.false_eq_true] at hb ⊢
    omega

theorem chains_consistent_empty : chains_consistent Registry.empty := by
  intro x
  simp [Registry.empty]

theorem chains_consistent_registry_store (reg : Registry) (info : ifinfomsg)
    (attrs : Table) (name : List Nat) (h : chains_consistent reg) :
    chains_consistent (registry_store reg info attrs name) := by
  intro x
  unfold registry_store
  by_cases hb : x = bucket info.ifi_index
  · simp only [hb, if_true]
    rw [chain_store_indices _ _ (store_fields_index info attrs name)]
    obtain ⟨hbk, hnd⟩ := h (bucket info.ifi_index)
    by_cases hs : (chain_find info.ifi_index (reg (bucket info.ifi_index))).isSome = true
    · simp only [hs, if_true]
      exact ⟨hbk, hnd⟩
    · simp only [hs, if_false, Bool.false_eq_true]
      have hnone : chain_find info.ifi_index (reg (bucket info.ifi_index)) = none := by
        cases hc : chain_find info.ifi_index (reg (bucket info.ifi_index)) with
        | none => rfl
        | some r => simp [hc] at hs
      have hnot := (chain_find_eq_none _ _).mp hnone
      constructor
      · intro k hk
        rcases List.mem_append.mp hk with hk | hk
        · exact hbk k hk
        · simp only [List.mem_singleton] at hk
          rw [hk]
      · rw [List.nodup_append]
        refine ⟨hnd, List.nodup_singleton _, ?_⟩
        intro a ha hb2
        simp only [List.mem_singleton] at hb2
        exact hnot (hb2 ▸ ha)
  · simp only [hb, if_false]
    exact h x

theorem chains_consistent_reachable (max : Int) (reg : Registry)
    (h : reachable max reg) : chains_consistent reg := by
  induction h with
  | empty => exact chains_consistent_empty
  | save reg hdr value _ _ ih =>
    rcases if_info_save_interface_registry max reg hdr with
      e | ⟨attrs, ifname, name, -, -, -, e⟩
    · rw [e]; exact ih
    · rw [e]; exact chains_consistent_registry_store reg hdr.info attrs name ih

/-- The registry of the three colliding interfaces is one the dump phase reaches. -/
theorem colliding_dump_reachable : reachable 11 colliding_dump :=
  reachable.save _ (link_msg RTM_NEWLINK (-13) IFF_UP [name_attr "eth2"]) 0
    (reachable.save _ (link_msg RTM_NEWLINK 19 IFF_UP [name_attr "eth1"]) 0
      (reachable.save _ (link_msg RTM_NEWLINK 3 IFF_UP [name_attr "eth0"]) 0
        reachable.empty (by decide))
      (by decide))
    (by decide)

theorem filter_index_length_le_one (i : Int) :
    ∀ chain : List if_info, (chain.map (fun r => r.index)).Nodup →
      (chain.filter (fun r => decide (r.index = i))).length ≤ 1
  | [] => by simp
  | r :: rest => by
    intro hnd
    rw [List.map_cons, List.nodup_cons] at hnd
    have ih := filter_index_length_le_one i rest hnd.2
    by_cases h : r.index = i
    · have hempty : rest.filter (fun r => decide (r.index = i)) = [] := by
        rw [List.filter_eq_nil_iff]
        intro a ha hai
        simp only [decide_eq_true_eq] at hai
        apply hnd.1
        rw [h, ← hai]
        exact List.mem_map_of_mem _ ha
      simp [List.filter_cons, h, hempty]
    · simp [List.filter_cons, h, ih]

theorem n_records_of_le_one (reg : Registry) (h : chains_consistent reg) (i : Int) :
    n_records_of reg i ≤ 1 := by
  unfold n_records_of
  rw [sum_range_single _ (bucket i)]
  · simp only [bucket_lt, if_true]
    exact filter_index_length_le_one i _ (h (bucket i)).2
  · intro x hx
    rw [List.length_eq_zero, List.filter_eq_nil_iff]
    intro a ha hai
    simp only [decide_eq_true_eq] at hai
    apply hx
    rw [← (h x).1 a.index (List.mem_map_of_mem _ ha), hai]

theorem store_fields_type (info : ifinfomsg) (attrs : Table) (name : List Nat)
    (i : if_info) : (store_fields info attrs name i).type = info.ifi_type := by
  unfold store_fields
  cases attrs IFLA_ADDRESS <;> rfl

theorem store_fields_name (info : ifinfomsg) (attrs : Table) (name : List Nat)
    (i : if_info) : (store_fields info attrs name i).name = name := by
  unfold store_fields
  cases attrs IFLA_ADDRESS <;> rfl

/-- The record the lookup returns after a store: the fields of the message written over
the record that was there, or over a new one. -/
theorem getOnly_registry_store_eq (reg : Registry) (info : ifinfomsg) (attrs : Table)
    (name : List Nat) :
    getOnly (registry_store reg info attrs name) info.ifi_index =
      some (store_fields info attrs name
        (match getOnly reg info.ifi_index with
         | some i => i
         | none => if_info.fresh info.ifi_index)) := by
  unfold getOnly registry_store
  simp only [if_true]
  exact chain_find_store _ _ (store_fields_index info attrs name) _

theorem nlmsg_len_ge_of_attr_len_nonneg (hdr : nlmsghdr) (h : 0 ≤ attr_len hdr) :
    NLMSG_LENGTH sizeof_ifinfomsg ≤ hdr.nlmsg_len := by
  unfold attr_len toInt32 NLMSG_LENGTH sizeof_ifinfomsg NLMSG_HDRLEN at *
  omega

/-- On a new-link message with a well-formed stream and a name that fits the name field,
`if_info_save_interface` stores the record, prints the name and returns 0. -/
theorem if_info_save_interface_named (max : Int) (reg : Registry) (hdr : nlmsghdr)
    (ifname : rtattr) (h : dump_named max hdr ifname) :
    ∃ attrs, attrs IFLA_IFNAME = some ifname ∧
      (∀ t : Nat, attrs t = if (t : Int) ≤ max then last_of_type t hdr.attrs else none) ∧
      if_info_save_interface max reg hdr =
        ⟨.returned 0, registry_store reg hdr.info attrs (c_string (RTA_DATA ifname)),
          [.printf (c_string (RTA_DATA ifname))]⟩ := by
  obtain ⟨htype, hwf, hmax, hlast, hfits⟩ := h
  have hs := strcpy_of_fits sizeof_name (RTA_DATA ifname) hfits
  obtain ⟨attrs, hp, ht⟩ := parse_rtattrs_of_well_formed max hdr.attrs Table.empty _ hwf
  have hn : attrs IFLA_IFNAME = some ifname := by
    rw [ht IFLA_IFNAME, hlast]
    simp [hmax]
  have hlen := nlmsg_len_ge_of_attr_len_nonneg hdr (attr_len_nonneg_of_well_formed hdr hwf)
  have h2 : ¬ hdr.nlmsg_len < NLMSG_LENGTH sizeof_pointer := by
    unfold NLMSG_LENGTH sizeof_ifinfomsg NLMSG_HDRLEN at hlen
    unfold NLMSG_LENGTH sizeof_pointer NLMSG_HDRLEN
    omega
  refine ⟨attrs, hn, ?_, ?_⟩
  · intro t
    rw [ht t]
    by_cases hle : (t : Int) ≤ max
    · simp only [hle, if_true]
      cases last_of_type t hdr.attrs <;> rfl
    · simp only [hle, if_false]
      rfl
  · unfold if_info_save_interface
    simp [htype, h2, hp, hn, hs]

/-- C13: in every registry the dump phase reaches from the empty registry by calls of
`if_info_save_interface` that return, each index has at most one record.  Saving a
new-link message with a well-formed stream and a name that fits the name field returns
0; the number of records is unchanged when the message's index had a record and grows by
exactly one when it had none; and afterwards the record of the index holds the message's
link type, flags and name, the name inside the field. -/
theorem C13_get_or_create (max : Int) :
    (∀ reg, reachable max reg → ∀ i, n_records_of reg i ≤ 1) ∧
      (∀ (reg : Registry) (hdr : nlmsghdr) (ifname : rtattr),
        dump_named max hdr ifname →
        (if_info_save_interface max reg hdr).outcome = Outcome.returned 0 ∧
        n_records (if_info_save_interface max reg hdr).registry =
          (if (getOnly reg hdr.info.ifi_index).isSome then n_records reg
           else n_records reg + 1) ∧
        ∃ r, getOnly (if_info_save_interface max reg hdr).registry hdr.info.ifi_index =
            some r ∧
          r.index = hdr.info.ifi_index ∧ r.type = hdr.info.ifi_type ∧
          r.flags = hdr.info.ifi_flags ∧ r.name = c_string (RTA_DATA ifname) ∧
          r.name.length < sizeof_name) := by
  refine ⟨fun reg hr => n_records_of_le_one reg (chains_consistent_reachable max reg hr),
    ?_⟩
  intro reg hdr ifname h
  obtain ⟨attrs, -, -, heq⟩ := if_info_save_interface_named max reg hdr ifname h
  rw [heq]
  refine ⟨rfl, n_records_registry_store reg hdr.info attrs _, _,
    getOnly_registry_store_eq reg hdr.info attrs _, ?_, store_fields_type _ _ _ _,
    store_fields_flags _ _ _ _, store_fields_name _ _ _ _, ?_⟩
  swap
  · rw [store_fields_name]
    exact h.2.2.2.2
  rw [store_fields_index]
  cases hg : getOnly reg hdr.info.ifi_index with
  | none => rfl
  | some i =>
    simp only []
    unfold getOnly at hg
    have : ∀ chain : List if_info, chain_find hdr.info.ifi_index chain = some i →
        i.index = hdr.info.ifi_index := by
      intro chain
      induction chain with
      | nil => intro hc; simp [chain_find] at hc
      | cons a rest ih =>
        intro hc
        by_cases ha : a.index = hdr.info.ifi_index
        · simp only [chain_find, ha, if_true, Option.some.injEq] at hc
          rw [← hc]; exact ha
        · simp only [chain_find, ha, if_false] at hc
          exact ih hc
    exact this _ hg

/-- C13 on a dump of indices 3, 19 and -13: the registry holds three records, one for
index 3; saving new flags for index 3 keeps three records, saving index 5 makes four, and
each time the record holds the message's type, flags and name. -/
theorem C13_get_or_create_witness :
    n_records colliding_dump = 3 ∧
      n_records_of colliding_dump 3 = 1 ∧
      reachable 11 colliding_dump ∧
      (∀ i, n_records_of colliding_dump i ≤ 1) ∧
      dump_named 11 (link_msg RTM_NEWLINK 3 IFF_RUNNING [name_attr "eth0"])
        (name_attr "eth0") ∧
      (getOnly colliding_dump 3).isSome = true ∧
      (getOnly colliding_dump 5).isSome = false ∧
      n_records (if_info_save_interface 11 colliding_dump
        (link_msg RTM_NEWLINK 3 IFF_RUNNING [name_attr "eth0"])).registry = 3 ∧
      n_records (if_info_save_interface 11 colliding_dump
        (link_msg RTM_NEWLINK 5 IFF_RUNNING [name_attr "eth5"])).registry = 4 ∧
      (∃ r, getOnly (if_info_save_interface 11 colliding_dump
            (link_msg RTM_NEWLINK 5 IFF_RUNNING [name_attr "eth5"])).registry 5 = some r ∧
          r.index = 5 ∧ r.type = 1 ∧ r.flags = IFF_RUNNING ∧
          r.name = c_string (c_bytes "eth5") ∧ r.name.length < sizeof_name) :=
  ⟨by decide, by decide, colliding_dump_reachable,
    (C13_get_or_create 11).1 colliding_dump colliding_dump_reachable,
    by decide, by decide, by decide,
    ((C13_get_or_create 11).2 colliding_dump
      (link_msg RTM_NEWLINK 3 IFF_RUNNING [name_attr "eth0"]) (name_attr "eth0")
      (by decide)).2.1,
    ((C13_get_or_create 11).2 colliding_dump
      (link_msg RTM_NEWLINK 5 IFF_RUNNING [name_attr "eth5"]) (name_attr "eth5")
      (by decide)).2.1,
    ((C13_get_or_create 11).2 colliding_dump
      (link_msg RTM_NEWLINK 5 IFF_RUNNING [name_attr "eth5"]) (name_attr "eth5")
      (by decide)).2.2⟩

/-! ## The stored hardware address -/

/-- The copy writes `n` bytes whatever the size of the destination: the result has the
size of the destination only when `n` is within it. -/
theorem memcpy_length : ∀ (dst src : List Nat) (n : Nat),
    (memcpy dst src n).length = max n dst.length
  | _, _, 0 => by simp [memcpy]
  | dst, src, n + 1 => by
    simp only [memcpy, List.length_cons, memcpy_length dst.tail src.tail n]
    cases dst with
    | nil => simp
    | cons d rest =>
      simp only [List.tail_cons, List.length_cons]
      omega

theorem memcpy_take : ∀ (dst src : List Nat) (n : Nat),
    n ≤ src.length → (memcpy dst src n).take n = src.take n
  | _, _, 0 => by simp
  | _, [], n + 1 => by intro h; simp at h
  | dst, b :: src, n + 1 => by
    intro h
    simp only [List.length_cons, Nat.add_le_add_iff_right] at h
    simp [memcpy, memcpy_take dst.tail src n h]

theorem last_of_type_mem (t : Nat) (rta : List rtattr) (a : rtattr)
    (h : last_of_type t rta = some a) : a ∈ rta := by
  unfold last_of_type at h
  exact (List.mem_filter.mp (List.mem_of_getLast?_eq_some h)).1

theorem chain_find_mem (index : Int) (i : if_info) :
    ∀ chain : List if_info, chain_find index chain = some i → i ∈ chain
  | [] => by simp [chain_find]
  | a :: rest => by
    intro h
    by_cases ha : a.index = index
    · simp only [chain_find, ha, if_true, Option.some.injEq] at h
      rw [← h]
      exact List.mem_cons_self _ _
    · simp only [chain_find, ha, if_false] at h
      exact List.mem_cons_of_mem _ (chain_find_mem index i rest h)

/-- The clamp of lines 69-70 keeps the copy of line 71 inside the address field: the
number of bytes copied is at most `sizeof_addr`. -/
theorem clamped_alen_le (alen : Int) :
    (if alen < 0 ∨ (sizeof_addr : Int) < alen then sizeof_addr else alen.toNat) ≤
      sizeof_addr := by
  unfold sizeof_addr
  split <;> omega

theorem store_fields_addr_length (info : ifinfomsg) (attrs : Table) (name : List Nat)
    (i : if_info) (h : i.addr.length = sizeof_addr) :
    (store_fields info attrs name i).addr.length = sizeof_addr := by
  unfold store_fields
  cases attrs IFLA_ADDRESS with
  | none => simp
  | some a =>
    simp only [memcpy_length, h]
    exact Nat.max_eq_right (clamped_alen_le (RTA_PAYLOAD a))

theorem chain_store_mem (index : Int) (f : if_info → if_info) (r : if_info) :
    ∀ chain : List if_info, r ∈ chain_store index f chain →
      r ∈ chain ∨ r = f (if_info.fresh index) ∨ ∃ i ∈ chain, r = f i
  | [] => by
    intro h
    simp only [chain_store, List.mem_singleton] at h
    exact Or.inr (Or.inl h)
  | a :: rest => by
    intro h
    by_cases ha : a.index = index
    · simp only [chain_store, ha, if_true, List.mem_cons] at h
      rcases h with h | h
      · exact Or.inr (Or.inr ⟨a, List.mem_cons_self _ _, h⟩)
      · exact Or.inl (List.mem_cons_of_mem _ h)
    · simp only [chain_store, ha, if_false, List.mem_cons] at h
      rcases h with h | h
      · exact Or.inl (h ▸ List.mem_cons_self _ _)
      · rcases chain_store_mem index f r rest h with h1 | h1 | ⟨i, hi, h1⟩
        · exact Or.inl (List.mem_cons_of_mem _ h1)
        · exact Or.inr (Or.inl h1)
        · exact Or.inr (Or.inr ⟨i, List.mem_cons_of_mem _ hi, h1⟩)

/-- Every record of a registry the dump phase reaches has an address field of
`sizeof_addr` bytes. -/
theorem reachable_addr_length (max : Int) (reg : Registry) (h : reachable max reg) :
    ∀ x, ∀ r ∈ reg x, r.addr.length = sizeof_addr := by
  induction h with
  | empty =>
    intro x r hr
    simp [Registry.empty] at hr
  | save reg hdr value _ _ ih =>
    rcases if_info_save_interface_registry max reg hdr with
      e | ⟨attrs, ifname, name, -, -, -, e⟩
    · rw [e]; exact ih
    · rw [e]
      intro x r hr
      unfold registry_store at hr
      by_cases hb : x = bucket hdr.info.ifi_index
      · simp only [hb, if_true] at hr
        rcases chain_store_mem _ _ r _ hr with h1 | h1 | ⟨i, hi, h1⟩
        · exact ih _ r h1
        · rw [h1]
          exact store_fields_addr_length _ _ _ _ (by simp [if_info.fresh])
        · rw [h1]
          exact store_fields_addr_length _ _ _ _ (ih _ i hi)
      · simp only [hb, if_false] at hr
        exact ih x r hr

/-- C15 fails as stated: for a new-link message whose hardware address has 40 bytes, the
stored bytes are the first 32 and the stored address length is 40, not 32. -/
theorem C15_stored_length_is_not_capped :
    RTA_PAYLOAD (addr_attr 40) = 40 ∧
      min 40 sizeof_addr = 32 ∧
      (if_info_save_interface 11 Registry.empty long_addr_msg).outcome =
        Outcome.returned 0 ∧
      (getOnly (if_info_save_interface 11 Registry.empty long_addr_msg).registry 3).map
        (fun r => r.addr_len) = some 40 ∧
      (getOnly (if_info_save_interface 11 Registry.empty long_addr_msg).registry 3).map
        (fun r => r.addr) = some ((List.range 32).map (fun k => k + 1)) := by
  decide

/-- C15, amended: when `if_info_save_interface`, in a registry the dump phase reaches,
saves a new-link message with a well-formed stream, a name that fits the name field and
a hardware address of `n` bytes, it returns 0 and the record of the index holds, in an
address field that still has `sizeof_addr` bytes, the first `min n sizeof_addr` bytes of
the payload; the stored address length is `n` itself. -/
theorem C15_address_bytes_are_capped (max : Int) (reg : Registry) (hdr : nlmsghdr)
    (ifname a : rtattr)
    (hreach : reachable max reg)
    (hnamed : dump_named max hdr ifname)
    (hmax : (IFLA_ADDRESS : Int) ≤ max)
    (haddr : last_of_type IFLA_ADDRESS hdr.attrs = some a)
    (hdata : a.rta_len - sizeof_rtattr ≤ (RTA_DATA a).length) :
    (if_info_save_interface max reg hdr).outcome = Outcome.returned 0 ∧
      ∃ r, getOnly (if_info_save_interface max reg hdr).registry hdr.info.ifi_index =
            some r ∧
        r.addr_len = ((a.rta_len - sizeof_rtattr : Nat) : Int) ∧
        r.addr.length = sizeof_addr ∧
        r.addr.take (min (a.rta_len - sizeof_rtattr) sizeof_addr) =
          (RTA_DATA a).take (min (a.rta_len - sizeof_rtattr) sizeof_addr) := by
  obtain ⟨attrs, -, htab, heq⟩ := if_info_save_interface_named max reg hdr ifname hnamed
  have hta : attrs IFLA_ADDRESS = some a := by
    rw [htab IFLA_ADDRESS, haddr]
    simp [hmax]
  have hge : sizeof_rtattr ≤ a.rta_len :=
    hnamed.2.1.1 a (last_of_type_mem _ _ _ haddr)
  have hold : (match getOnly reg hdr.info.ifi_index with
      | some i => i
      | none => if_info.fresh hdr.info.ifi_index).addr.length = sizeof_addr := by
    cases hg : getOnly reg hdr.info.ifi_index with
    | none => simp [if_info.fresh]
    | some i =>
      exact reachable_addr_length max reg hreach _ i (chain_find_mem _ _ _ hg)
  rw [heq]
  refine ⟨rfl, _, getOnly_registry_store_eq _ hdr.info attrs _, ?_, ?_, ?_⟩
  · unfold store_fields
    simp only [hta, RTA_PAYLOAD, RTA_LENGTH, RTA_ALIGN, RTA_ALIGNTO, sizeof_rtattr]
    unfold sizeof_rtattr at hge
    omega
  · exact store_fields_addr_length _ _ _ _ hold
  · have hn : (if RTA_PAYLOAD a < 0 ∨ (sizeof_addr : Int) < RTA_PAYLOAD a then sizeof_addr
        else (RTA_PAYLOAD a).toNat) = min (a.rta_len - sizeof_rtattr) sizeof_addr := by
      unfold sizeof_rtattr at hge
      simp only [RTA_PAYLOAD, RTA_LENGTH, RTA_ALIGN, RTA_ALIGNTO, sizeof_rtattr, sizeof_addr]
      split <;> omega
    unfold store_fields
    simp only [hta, hn]
    apply memcpy_take
    exact Nat.le_trans (Nat.min_le_left _ _) hdata

/-- C15, amended, on a dump that saved `eth0` with 6 address bytes followed by a message
for the same index with 40 address bytes.  A copy of all 40 bytes, without the clamp of
lines 69-70, would have written 40 bytes over the 32 of the field. -/
theorem C15_address_bytes_are_capped_witness :
    (memcpy (List.replicate sizeof_addr 0) (RTA_DATA (addr_attr 40)) 40).length = 40 ∧
      reachable 11 (dump 11 [short_addr_msg]) ∧
      dump_named 11 long_addr_msg (name_attr "eth0") ∧
      last_of_type IFLA_ADDRESS long_addr_msg.attrs = some (addr_attr 40) ∧
      (addr_attr 40).rta_len - sizeof_rtattr = 40 ∧
      ((if_info_save_interface 11 (dump 11 [short_addr_msg]) long_addr_msg).outcome =
          Outcome.returned 0 ∧
        ∃ r, getOnly (if_info_save_interface 11 (dump 11 [short_addr_msg])
              long_addr_msg).registry 3 = some r ∧
          r.addr_len = 40 ∧
          r.addr.length = sizeof_addr ∧
          r.addr.take (min 40 sizeof_addr) =
            (RTA_DATA (addr_attr 40)).take (min 40 sizeof_addr)) :=
  ⟨by decide, reachable.save _ short_addr_msg 0 reachable.empty (by decide), by decide,
    by decide, by decide,
    C15_address_bytes_are_capped 11 (dump 11 [short_addr_msg]) long_addr_msg
      (name_attr "eth0") (addr_attr 40)
      (reachable.save _ short_addr_msg 0 reachable.empty (by decide))
      (by decide) (by decide) (by decide) (by decide)⟩

/-! ## Lengths that do not cover the headers -/

theorem attr_len_neg_of_short (hdr : nlmsghdr)
    (h : hdr.nlmsg_len < NLMSG_LENGTH sizeof_ifinfomsg) : attr_len hdr < 0 := by
  unfold attr_len toInt32 NLMSG_LENGTH sizeof_ifinfomsg NLMSG_HDRLEN at *
  omega

/-- C16: for a new-link or del-link message that is not loopback and whose total length
is smaller than the message header plus the link-info header, the computed attribute
length is negative and `handle_interface` logs it and returns -1: no hook decision, no
reprobe call, the registry as it was, the process not ended.  The decoder is not run: the
result is the same whatever the attribute stream, streams the decoder aborts on
included. -/
theorem C16_short_live_message_is_skipped (env : Env) (reg : Registry) (hdr : nlmsghdr)
    (htype : hdr.nlmsg_type = RTM_NEWLINK ∨ hdr.nlmsg_type = RTM_DELLINK)
    (hloop : hdr.info.ifi_flags &&& IFF_LOOPBACK = 0)
    (hshort : hdr.nlmsg_len < NLMSG_LENGTH sizeof_ifinfomsg) :
    attr_len hdr < 0 ∧
      (handle_interface env reg hdr).outcome = Outcome.returned (-1) ∧
      (handle_interface env reg hdr).trace = [Event.do_log LOG_ERR "len = %d"] ∧
      (handle_interface env reg hdr).registry = reg ∧
      ∀ rta, (handle_interface env reg { hdr with attrs := rta }).outcome =
          (handle_interface env reg hdr).outcome ∧
        (handle_interface env reg { hdr with attrs := rta }).trace =
          (handle_interface env reg hdr).trace := by
  have hneg := attr_len_neg_of_short hdr hshort
  have h1 : ¬ (hdr.nlmsg_type ≠ RTM_NEWLINK ∧ hdr.nlmsg_type ≠ RTM_DELLINK) := by
    rcases htype with h | h <;> simp [h]
  have hrun : ∀ rta, handle_interface env reg { hdr with attrs := rta } =
      ⟨.returned (-1), reg, [.do_log LOG_ERR "len = %d"]⟩ := by
    intro rta
    have hneg2 : attr_len { hdr with attrs := rta } < 0 := hneg
    simp [handle_interface, h1, hloop, hneg2]
  have h0 : handle_interface env reg hdr =
      ⟨.returned (-1), reg, [.do_log LOG_ERR "len = %d"]⟩ := hrun hdr.attrs
  refine ⟨hneg, ?_, ?_, ?_, ?_⟩
  · rw [h0]
  · rw [h0]
  · rw [h0]
  · intro rta
    rw [hrun rta, h0]
    exact ⟨rfl, rfl⟩

/-- C16 on a del-link message of 20 bytes whose attribute stream the decoder would abort
on. -/
theorem C16_short_live_message_is_skipped_witness :
    short_dellink_msg.nlmsg_len < NLMSG_LENGTH sizeof_ifinfomsg ∧
      decode eth_only.IFLA_MAX short_dellink_msg.attrs (attr_len short_dellink_msg) =
        Except.error Stop.abort ∧
      (attr_len short_dellink_msg < 0 ∧
        (handle_interface eth_only after_dump short_dellink_msg).outcome =
          Outcome.returned (-1) ∧
        (handle_interface eth_only after_dump short_dellink_msg).trace =
          [Event.do_log LOG_ERR "len = %d"] ∧
        (handle_interface eth_only after_dump short_dellink_msg).registry = after_dump ∧
        ∀ rta, (handle_interface eth_only after_dump
              { short_dellink_msg with attrs := rta }).outcome =
            (handle_interface eth_only after_dump short_dellink_msg).outcome ∧
          (handle_interface eth_only after_dump
              { short_dellink_msg with attrs := rta }).trace =
            (handle_interface eth_only after_dump short_dellink_msg).trace) :=
  ⟨by decide, rfl,
    C16_short_live_message_is_skipped eth_only after_dump short_dellink_msg
      (by decide) (by decide) (by decide)⟩

/-- C17 fails on the code: for a new-link message with a well-formed stream whose name
has 20 visible bytes, the `strcpy` of line 77, which has no bound, writes the 20 bytes
and the NUL into a name field with room for 15 bytes and the NUL: the copy runs past the
field and the call ends in `Stop.overflow`.  The copy of a 40-byte hardware address by
the same function is clamped and returns 0. -/
theorem C17_long_name_overruns_the_field :
    long_name_msg.nlmsg_type = RTM_NEWLINK ∧
      well_formed long_name_msg.attrs (attr_len long_name_msg) ∧
      last_of_type IFLA_IFNAME long_name_msg.attrs =
        some (name_attr "verylonginterface000") ∧
      (c_string (RTA_DATA (name_attr "verylonginterface000"))).length = 20 ∧
      sizeof_name - 1 = 15 ∧
      strcpy sizeof_name (RTA_DATA (name_attr "verylonginterface000")) = none ∧
      (if_info_save_interface 11 Registry.empty long_name_msg).outcome =
        Outcome.stopped Stop.overflow ∧
      (if_info_save_interface 11 Registry.empty long_addr_msg).outcome =
        Outcome.returned 0 := by
  decide

/-- C18 fails on the code: a new-link message that declares 28 bytes passes the guard of
line 34, which compares with the header plus the size of a pointer (24), not of the
link-info header (32).  The decoder is then run on the length -4 and the process aborts.
On the same message the live handler returns -1. -/
theorem C18_short_dump_message_aborts :
    short_newlink_msg.nlmsg_type = RTM_NEWLINK ∧
      short_newlink_msg.nlmsg_len < NLMSG_LENGTH sizeof_ifinfomsg ∧
      ¬ short_newlink_msg.nlmsg_len < NLMSG_LENGTH sizeof_pointer ∧
      attr_len short_newlink_msg = -4 ∧
      (if_info_save_interface 11 after_dump short_newlink_msg).outcome =
        Outcome.stopped Stop.abort ∧
      (handle_interface eth_only after_dump short_newlink_msg).outcome =
        Outcome.returned (-1) := by
  decide

/-! ## The decoder loop uses up the length -/

theorem RTA_ALIGN_ge_four (n : Nat) (h : sizeof_rtattr ≤ n) : 4 ≤ RTA_ALIGN n := by
  unfold sizeof_rtattr at h
  unfold RTA_ALIGN RTA_ALIGNTO
  omega

theorem RTA_OK_bounds (r : rtattr) (len : Int) (h : RTA_OK r len = true) :
    sizeof_rtattr ≤ r.rta_len ∧ (r.rta_len : Int) ≤ len ∧ 4 ≤ RTA_ALIGN r.rta_len := by
  simp only [RTA_OK, Bool.and_eq_true, decide_eq_true_eq] at h
  exact ⟨h.1.2, h.2, RTA_ALIGN_ge_four _ h.1.2⟩

theorem walk_steps_le : ∀ (rta : List rtattr) (len : Int),
    walk_steps rta len ≤ len.toNat / 4
  | [], _ => by simp [walk_steps]
  | r :: next, len => by
    by_cases hok : RTA_OK r len = true
    · obtain ⟨h1, h2, h3⟩ := RTA_OK_bounds r len hok
      have ih := walk_steps_le next (len - (RTA_ALIGN r.rta_len : Nat))
      have hal := RTA_ALIGN_ge r.rta_len
      simp only [walk_steps, hok, if_true]
      unfold sizeof_rtattr at h1
      omega
    · simp [walk_steps, hok]

theorem walk_stream_stops (buf : Nat → rtattr) :
    ∀ (fuel pos : Nat) (len : Int), len.toNat / 4 < fuel →
      ∃ n rem, walk_stream buf fuel pos len = some (n, rem) ∧ n ≤ len.toNat / 4
  | 0, _, _ => by intro h; omega
  | fuel + 1, pos, len => by
    intro hfuel
    by_cases hok : RTA_OK (buf pos) len = true
    · obtain ⟨h1, h2, h3⟩ := RTA_OK_bounds (buf pos) len hok
      unfold sizeof_rtattr at h1
      obtain ⟨n, rem, hw, hn⟩ := walk_stream_stops buf fuel (pos + 1)
        (len - (RTA_ALIGN (buf pos).rta_len : Nat)) (by omega)
      refine ⟨n + 1, rem, ?_, by omega⟩
      simp [walk_stream, hok, hw]
    · exact ⟨0, len, by simp [walk_stream, hok], by omega⟩

/-- C20: the loop of `parse_rtattrs` stops for every stream, every declared length (zero
and negative lengths included) and every `max`.  An iteration is taken only when the
record declares at least a header and at most the remaining length, and it takes the
aligned record size, at least 4, off the remaining length.  So the loop takes at most
`len / 4` iterations over the records of the stream, none when `len < 4`; and over a
buffer that never ends it is left within `len / 4` iterations, whatever the records. -/
theorem C20_walk_uses_up_the_length (tb : Table) (max : Int) (rta : List rtattr)
    (len : Int) (buf : Nat → rtattr) (pos : Nat) :
    walk_steps rta len ≤ len.toNat / 4 ∧
      (len < 4 → walk_steps rta len = 0) ∧
      (∃ n rem, walk_stream buf (len.toNat / 4 + 1) pos len = some (n, rem) ∧
        n ≤ len.toNat / 4) ∧
      (∀ r next, RTA_OK r len = true →
        sizeof_rtattr ≤ r.rta_len ∧ (r.rta_len : Int) ≤ len ∧ 4 ≤ RTA_ALIGN r.rta_len ∧
        len - (RTA_ALIGN r.rta_len : Nat) < len ∧
        walk_steps (r :: next) len =
          walk_steps next (len - (RTA_ALIGN r.rta_len : Nat)) + 1 ∧
        parse_rtattrs tb max (r :: next) len =
          parse_rtattrs (if (r.rta_type : Int) ≤ max then tb.set r.rta_type r else tb) max
            next (len - (RTA_ALIGN r.rta_len : Nat))) ∧
      (∀ r next, RTA_OK r len = false →
        walk_steps (r :: next) len = 0 ∧
        parse_rtattrs tb max (r :: next) len =
          if len ≠ 0 then Except.error Stop.abort else Except.ok tb) := by
  refine ⟨walk_steps_le rta len, ?_, walk_stream_stops buf _ pos len (by omega), ?_, ?_⟩
  · intro hlt
    have := walk_steps_le rta len
    omega
  · intro r next hok
    obtain ⟨h1, h2, h3⟩ := RTA_OK_bounds r len hok
    refine ⟨h1, h2, h3, by omega, ?_, ?_⟩
    · simp [walk_steps, hok]
    · simp [parse_rtattrs, hok]
  · intro r next hok
    constructor
    · simp [walk_steps, hok]
    · simp [parse_rtattrs, hok]

/-- C20 on the declared length 40: the four records of the sample stream take four
iterations, a buffer of 4-byte records that never ends is left after ten, and the first
record of the sample stream, which declares 9 bytes, takes 12 off the length. -/
theorem C20_walk_uses_up_the_length_witness :
    walk_steps sample_stream 40 = 4 ∧
      walk_steps sample_stream 0 = 0 ∧
      walk_steps sample_stream (-8) = 0 ∧
      walk_stream endless_buffer 11 0 40 = some (10, 0) ∧
      RTA_OK (name_attr "eth0") 40 = true ∧
      (sizeof_rtattr ≤ (name_attr "eth0").rta_len ∧
        ((name_attr "eth0").rta_len : Int) ≤ 40 ∧
        4 ≤ RTA_ALIGN (name_attr "eth0").rta_len ∧
        (40 : Int) - (RTA_ALIGN (name_attr "eth0").rta_len : Nat) < 40 ∧
        walk_steps (name_attr "eth0" :: sample_stream.tail) 40 =
          walk_steps sample_stream.tail (40 - (RTA_ALIGN (name_attr "eth0").rta_len : Nat))
            + 1 ∧
        parse_rtattrs Table.empty 11 (name_attr "eth0" :: sample_stream.tail) 40 =
          parse_rtattrs
            (if ((name_attr "eth0").rta_type : Int) ≤ 11 then
              Table.empty.set (name_attr "eth0").rta_type (name_attr "eth0")
             else Table.empty) 11
            sample_stream.tail (40 - (RTA_ALIGN (name_attr "eth0").rta_len : Nat))) :=
  ⟨by decide, by decide, by decide, by decide, by decide,
    (C20_walk_uses_up_the_length Table.empty 11 sample_stream 40 endless_buffer 0).2.2.2.1
      (name_attr "eth0") sample_stream.tail (by decide)⟩

end Netplug
